import Mathlib

/-!
# manifest-tool `inspect`: resolution and rendering pipeline

A shallow embedding of `v2/cmd/manifest-tool/inspect.go` (and of the exit
behaviour of `main.go`), followed by the properties established about it.

Conventions of the embedding.

* Text written to standard output is a `List String` of lines: every
  `fmt.Printf` / `WriteString` of the source emits newline-terminated text, and
  each list element is one such line without its terminator (a format ending in
  two newlines contributes the line and an empty line).
* The colour functions built with `color.New(...).SprintFunc()` are a
  `Palette` parameter: four functions on the already formatted operand.
* `encoding/json` is a `JSON` parameter: three decoders and `MarshalIndent`,
  each of which may fail.
* `logrus.Fatal` terminates the process with status 1; a nil pointer
  dereference is a runtime panic; both are explicit terminations.
-/

namespace ManifestTool

/-! ## Data model (`ocispec`) -/

/-- Raw payload bytes. -/
abbrev Bytes := List Nat

/-- The type `ocispec.Platform`. -/
structure Platform where
  Architecture : String
  OS : String
  OSVersion : String
  OSFeatures : List String
  Variant : String
  deriving DecidableEq, Repr

/-- The type `ocispec.Descriptor`, with the fields the command reads.
`Annotations` is a Go `map[string]string`; `Platform` is a pointer and may be nil. -/
structure Descriptor where
  MediaType : String
  Digest : String
  Size : Int
  Annotations : List (String × String)
  Platform : Option Platform
  deriving DecidableEq, Repr

/-- The type `ocispec.Index`. -/
structure Index where
  SchemaVersion : Int
  MediaType : String
  Manifests : List Descriptor
  Annotations : List (String × String)
  deriving DecidableEq, Repr

/-- The type `ocispec.Manifest`: schema version, media type, artifact type, config,
layers, subject, annotations. -/
structure Manifest where
  SchemaVersion : Int
  MediaType : String
  ArtifactType : String
  Config : Descriptor
  Layers : List Descriptor
  Subject : Option Descriptor
  Annotations : List (String × String)
  deriving DecidableEq, Repr

/-- The type `ocispec.Image` (image configuration), with the fields the command reads. -/
structure Image where
  Architecture : String
  OS : String
  deriving DecidableEq, Repr

/-- The constant `ocispec.MediaTypeImageIndex`. -/
def MediaTypeImageIndex : String := "application/vnd.oci.image.index.v1+json"

/-- The constant `ocispec.MediaTypeImageManifest`. -/
def MediaTypeImageManifest : String := "application/vnd.oci.image.manifest.v1+json"

/-- Modelled from the spec: the constant `types.MediaTypeDockerSchema2ManifestList`
of `pkg/types` (absent from src/), the Docker schema2 manifest list media type. -/
def MediaTypeDockerSchema2ManifestList : String :=
  "application/vnd.docker.distribution.manifest.list.v2+json"

/-- Modelled from the spec: the constant `types.MediaTypeDockerSchema2Manifest`
of `pkg/types` (absent from src/), the Docker schema2 manifest media type. -/
def MediaTypeDockerSchema2Manifest : String :=
  "application/vnd.docker.distribution.manifest.v2+json"

/-- The guard `case ocispec.MediaTypeImageIndex, types.MediaTypeDockerSchema2ManifestList`. -/
def isIndexType (mediaType : String) : Bool :=
  mediaType == MediaTypeImageIndex || mediaType == MediaTypeDockerSchema2ManifestList

/-- The guard `case ocispec.MediaTypeImageManifest, types.MediaTypeDockerSchema2Manifest`. -/
def isManifestType (mediaType : String) : Bool :=
  mediaType == MediaTypeImageManifest || mediaType == MediaTypeDockerSchema2Manifest

/-! ## Content store -/

/-- Modelled from the spec: the in-memory content store of `pkg/store` (absent
from src/), a map from content digest to (media type, raw bytes). -/
structure MemoryStore where
  blobs : List (String × String × Bytes)
  deriving DecidableEq, Repr

/-- Modelled from the spec: `get(descriptor) -> (mediaType, bytes)` or not-found;
the digest of the descriptor is the key. -/
def MemoryStore.Get (ms : MemoryStore) (desc : Descriptor) : Option (String × Bytes) :=
  ms.blobs.lookup desc.Digest

/-- The byte slice bound by `_, db, _ := ms.Get(desc)`: the returned descriptor
and the lookup status are discarded, and a lookup that finds nothing leaves the
zero value, the empty slice. -/
def payload (ms : MemoryStore) (desc : Descriptor) : Bytes :=
  match ms.Get desc with
  | some (_, db) => db
  | none => []

/-! ## Collaborating libraries -/

/-- The four `SprintFunc` colour functions, applied to the formatted operand. -/
structure Palette where
  yellow : String → String
  red : String → String
  blue : String → String
  green : String → String

/-- Colour output disabled: every colour function is the identity. -/
def Palette.plain : Palette := ⟨id, id, id, id⟩

/-- The struct `indexJson`. -/
structure indexJson where
  Name : String
  Digest : String
  SchemaVersion : Int
  MediaType : String
  Manifests : List Manifest
  Annotations : List (String × String)
  deriving DecidableEq, Repr

/-- The struct `manifestJson`; the last field is the embedded `ocispec.Manifest`. -/
structure manifestJson where
  Name : String
  Digest : String
  Os : String
  Arch : String
  Manifest : Manifest
  deriving DecidableEq, Repr

/-- The struct `manifestConfigJson`. -/
structure manifestConfigJson where
  SchemaVersion : Int
  Name : String
  Digest : String
  Os : String
  Arch : String
  MediaType : String
  Config : Image
  Layers : List Descriptor
  Subject : Option Descriptor
  Annotations : List (String × String)
  deriving DecidableEq, Repr

/-- The values handed to `json.MarshalIndent` by `generateRawJSON`. -/
inductive RawJSON where
  | index (v : indexJson)
  | manifest (v : manifestJson)
  | manifestConfig (v : manifestConfigJson)
  deriving DecidableEq, Repr

/-- The package `encoding/json` as used by the command: `json.Unmarshal` into an
`ocispec.Index`, an `ocispec.Manifest` and an `ocispec.Image`, and
`json.MarshalIndent(v, "", "    ")`. Each returns a value or an error message. -/
structure JSON where
  UnmarshalIndex : Bytes → Except String Index
  UnmarshalManifest : Bytes → Except String Manifest
  UnmarshalImage : Bytes → Except String Image
  MarshalIndent : RawJSON → Except String String

/-! ## Terminations -/

/-- How a piece of the command stops: it returns (with an error or nil), it
calls `logrus.Fatal` (the process exits with status 1), or it panics. -/
inductive Termination where
  | returned (err : Option String)
  | fatal (msg : String)
  | panic (msg : String)
  deriving DecidableEq, Repr

/-- Process exit status, from `main`: `os.Exit(1)` when `runApplication` returns an
error, `os.Exit(0)` otherwise; `logrus.Fatal` exits with 1 and a panic with 2. -/
def Termination.exitCode : Termination → Nat
  | .returned none => 0
  | .returned (some _) => 1
  | .fatal _ => 1
  | .panic _ => 2

/-- What a renderer has written to standard output, and how it stopped. -/
structure Run where
  stdout : List String
  termination : Termination
  deriving DecidableEq, Repr

/-- Formatting of `[]string` by `fmt.Sprint`. -/
def sprintStrings (l : List String) : String :=
  "[" ++ " ".intercalate l ++ "]"

/-- The verb `%02d` on a non-negative integer. -/
def pad2 (n : Nat) : String :=
  if n < 10 then "0" ++ toString n else toString n

/-- The message of a nil pointer dereference. -/
def nilDeref : String := "invalid memory address or nil pointer dereference"

/-! ## `outputList` -/

/-- The loop variables of `outputList` that outlive an iteration. -/
structure ListState where
  outputStr : List String
  attestations : Nat
  deriving DecidableEq, Repr

/-- The inner loop of `outputList` over `man.Layers`, from index `j`. -/
def outputListLayers (P : Palette) : Nat → List Descriptor → List String
  | _, [] => []
  | j, layer :: rest =>
    ("     layer " ++ P.red (pad2 (j + 1)) ++ ": digest = " ++ P.yellow layer.Digest) ::
    ("                 type = " ++ P.green layer.MediaType) ::
    outputListLayers P (j + 1) rest

/-- The platform lines of an entry block of `outputList`; `n` is the formatted
prefix `[i+1]`. The OS version, OS features and variant lines are conditional. -/
def outputListPlatform (P : Palette) (n : String) (platform : Platform) : List String :=
  [n ++ " Platform:", n ++ "    -      OS: " ++ P.green platform.OS] ++
  (if platform.OSVersion ≠ "" then
    [n ++ "    - OS Vers: " ++ P.green platform.OSVersion] else []) ++
  (if platform.OSFeatures.length > 0 then
    [n ++ "    - OS Feat: " ++ P.green (sprintStrings platform.OSFeatures)] else []) ++
  [n ++ "    -    Arch: " ++ P.green platform.Architecture] ++
  (if platform.Variant ≠ "" then
    [n ++ "    - Variant: " ++ P.green platform.Variant] else [])

/-- One iteration of the loop of `outputList` over `index.Manifests`, for the
entry `img` at index `i`. An error is a termination of the whole process. -/
def outputListStep (P : Palette) (J : JSON) (cs : MemoryStore) (i : Nat) (img : Descriptor)
    (st : ListState) : Except Termination ListState :=
  let isAttestation : Bool :=
    match img.Annotations.lookup "vnd.docker.reference.type" with
    | some aRefType => aRefType == "attestation-manifest"
    | none => false
  let attestations := if isAttestation then st.attestations + 1 else st.attestations
  let attestationDetail :=
    if isAttestation then " (vnd.docker.reference.type=attestation-manifest)" else ""
  let n := "[" ++ toString (i + 1) ++ "]"
  let out := st.outputStr ++
    [n ++ "     Type: " ++ P.green img.MediaType ++ P.green attestationDetail,
     n ++ "   Digest: " ++ P.yellow img.Digest,
     n ++ "   Length: " ++ P.blue (toString img.Size)]
  let db := payload cs img
  if isManifestType img.MediaType then
    match J.UnmarshalManifest db with
    | .error err => .error (.fatal err)
    | .ok man =>
      if attestationDetail.length > 0 then
        let attestRef := (img.Annotations.lookup "vnd.docker.reference.digest").getD ""
        .ok ⟨out ++ [n ++ "       >>> Attestation for digest: " ++ P.yellow attestRef, ""],
             attestations⟩
      else
        match img.Platform with
        | none => .error (.panic nilDeref)
        | some platform =>
          .ok ⟨out ++ outputListPlatform P n platform ++
                [n ++ " # Layers: " ++ P.red (toString man.Layers.length)] ++
                outputListLayers P 0 man.Layers ++ [""],
               attestations⟩
  else
    .ok ⟨out ++ ["Unknown media type for further display: " ++ img.MediaType], attestations⟩

/-- The loop of `outputList` over `index.Manifests`, from index `i`. -/
def outputListLoop (P : Palette) (J : JSON) (cs : MemoryStore) :
    Nat → List Descriptor → ListState → Except Termination ListState
  | _, [], st => .ok st
  | i, img :: rest, st =>
    match outputListStep P J cs i img st with
    | .error t => .error t
    | .ok st2 => outputListLoop P J cs (i + 1) rest st2

/-- The label chosen for the image count. -/
def imageStr (imageCount : Int) : String :=
  if imageCount > 1 then "images" else "image"

/-- The label chosen for the attestation count. -/
def attestStr (attestations : Nat) : String :=
  if attestations > 1 then "attestations" else "attestation"

/-- The summary line of `outputList`. -/
def summaryLine (P : Palette) (total : Nat) (imageCount : Int) (attestations : Nat) : String :=
  " * Contains " ++ P.red (toString total) ++ " manifest references (" ++
    P.red (toString imageCount) ++ " " ++ imageStr imageCount ++ ", " ++
    P.red (toString attestations) ++ " " ++ attestStr attestations ++ "):"

/-- The two lines `outputList` prints before entering its loop. -/
def listHeader (P : Palette) (name : String) (descriptor : Descriptor) : List String :=
  ["Name:   " ++ P.green name ++ " (Type: " ++ P.green descriptor.MediaType ++ ")",
   "Digest: " ++ P.yellow descriptor.Digest]

/-- The function `outputList`. The entry blocks are collected in a builder and
printed after the summary line, once the loop has finished. -/
def outputList (P : Palette) (J : JSON) (name : String) (cs : MemoryStore)
    (descriptor : Descriptor) (index : Index) : Run :=
  match outputListLoop P J cs 0 index.Manifests ⟨[], 0⟩ with
  | .error t => ⟨listHeader P name descriptor, t⟩
  | .ok st =>
    let imageCount : Int := (index.Manifests.length : Int) - (st.attestations : Int)
    ⟨listHeader P name descriptor ++
        [summaryLine P index.Manifests.length imageCount st.attestations] ++ st.outputStr,
      .returned none⟩

/-! ## `outputImage` -/

/-- The loop of `outputImage` over `manifest.Layers`, from index `i`. -/
def outputImageLayers (P : Palette) : Nat → List Descriptor → List String
  | _, [] => []
  | i, layer :: rest =>
    ("      layer " ++ P.red (pad2 (i + 1)) ++ ": digest = " ++ P.yellow layer.Digest) ::
    outputImageLayers P (i + 1) rest

/-- The function `outputImage`. -/
def outputImage (P : Palette) (name : String) (descriptor : Descriptor) (manifest : Manifest)
    (config : Image) : List String :=
  ["Name: " ++ P.green name ++ " (Type: " ++ P.green descriptor.MediaType ++ ")",
   "      Digest: " ++ P.yellow descriptor.Digest,
   "        Size: " ++ P.blue (toString descriptor.Size),
   "          OS: " ++ P.green config.OS,
   "        Arch: " ++ P.green config.Architecture,
   "    # Layers: " ++ P.red (toString manifest.Layers.length)] ++
  outputImageLayers P 0 manifest.Layers

/-! ## `generateRawJSON` -/

/-- The loop of `generateRawJSON` over `idx.Manifests`; `indexJSON` is the
document under construction. An error ends the function. -/
def generateRawJSONLoop (J : JSON) (ms : MemoryStore) :
    List Descriptor → indexJson → Except String indexJson
  | [], indexJSON => .ok indexJSON
  | m :: rest, indexJSON =>
    let man := payload ms m
    if isManifestType m.MediaType then
      match J.UnmarshalManifest man with
      | .error err => .error err
      | .ok image =>
        generateRawJSONLoop J ms rest
          { indexJSON with Manifests := indexJSON.Manifests ++ [image] }
    else
      .error ("unknown media type for further display: " ++ m.MediaType)

/-- The function `generateRawJSON`; the result is the Go pair `(string, error)`. -/
def generateRawJSON (J : JSON) (name : String) (descriptor : Descriptor) (expandConfig : Bool)
    (ms : MemoryStore) : String × Option String :=
  let db := payload ms descriptor
  if isIndexType descriptor.MediaType then
    match J.UnmarshalIndex db with
    | .error err => ("", some err)
    | .ok idx =>
      let indexJSON : indexJson :=
        { Name := name
          Digest := descriptor.Digest
          SchemaVersion := idx.SchemaVersion
          MediaType := idx.MediaType
          Manifests := []
          Annotations := idx.Annotations }
      match generateRawJSONLoop J ms idx.Manifests indexJSON with
      | .error err => ("", some err)
      | .ok indexJSON =>
        match J.MarshalIndent (.index indexJSON) with
        | .error err => ("", some err)
        | .ok b => (b, none)
  else if isManifestType descriptor.MediaType then
    match J.UnmarshalManifest db with
    | .error err => ("", some err)
    | .ok man =>
      let cb := payload ms man.Config
      match J.UnmarshalImage cb with
      | .error err => ("", some err)
      | .ok conf =>
        let rawJSON : RawJSON :=
          if !expandConfig then
            .manifest
              { Name := name
                Digest := descriptor.Digest
                Os := conf.OS
                Arch := conf.Architecture
                Manifest := man }
          else
            .manifestConfig
              { Name := name
                Digest := descriptor.Digest
                Os := conf.OS
                Arch := conf.Architecture
                Config := conf
                Layers := man.Layers
                SchemaVersion := man.SchemaVersion
                MediaType := man.MediaType
                Annotations := man.Annotations
                Subject := man.Subject }
        match J.MarshalIndent rawJSON with
        | .error err => ("", some err)
        | .ok b => (b, none)
  else
    ("", some ("unknown descriptor type: " ++ descriptor.MediaType))

/-! ## The action of `inspectCmd` -/

/-- The arguments and flags the action reads from its `cli.Context`. -/
structure Context where
  name : String
  raw : Bool
  expandConfig : Bool
  deriving DecidableEq, Repr

/-- What the collaborators of the action answer when called: `util.ParseName`
(an error, or a reference together with whether it is a `reference.NamedTagged`),
`util.CreateRegistryHost` (an error or nil), and `registry.FetchDescriptor` (a
descriptor and an error or nil), which also fills the memory store. -/
structure Collaborators where
  ParseName : Except String Bool
  CreateRegistryHost : Option String
  FetchDescriptor : Descriptor × Option String
  memoryStore : MemoryStore

/-- The collaborator calls the action makes, in the order of the source. -/
inductive Call where
  | ParseName
  | NewMemoryStore
  | CreateRegistryHost
  | FetchDescriptor
  deriving DecidableEq, Repr

/-- An execution of the action: collaborator calls made, messages logged without
terminating (`logrus.Error`, `logrus.Errorf`), standard output, termination. -/
structure ActionRun where
  calls : List Call
  log : List String
  stdout : List String
  termination : Termination
  deriving DecidableEq, Repr

/-- The human-mode part of the action (from `_, db, _ := memoryStore.Get(descriptor)`
to the final `return nil`): the messages logged without terminating, and the run. -/
def inspectHuman (P : Palette) (J : JSON) (name : String) (memoryStore : MemoryStore)
    (descriptor : Descriptor) : List String × Run :=
  let db := payload memoryStore descriptor
  if isIndexType descriptor.MediaType then
    match J.UnmarshalIndex db with
    | .error err => ([], ⟨[], .fatal err⟩)
    | .ok idx => ([], outputList P J name memoryStore descriptor idx)
  else if isManifestType descriptor.MediaType then
    match J.UnmarshalManifest db with
    | .error err => ([], ⟨[], .fatal err⟩)
    | .ok man =>
      let cb := payload memoryStore man.Config
      match J.UnmarshalImage cb with
      | .error err => ([], ⟨[], .fatal err⟩)
      | .ok conf => ([], ⟨outputImage P name descriptor man conf, .returned none⟩)
  else
    (["Unknown descriptor type: " ++ descriptor.MediaType], ⟨[], .returned none⟩)

/-- The `Action` of `inspectCmd`. In raw mode the document printed by
`fmt.Println` is one element of `stdout`. -/
def inspectAction (P : Palette) (J : JSON) (c : Context) (env : Collaborators) : ActionRun :=
  let name := c.name
  match env.ParseName with
  | .error err => ⟨[.ParseName], [], [], .fatal err⟩
  | .ok namedTagged =>
    if !namedTagged then
      ⟨[.ParseName], [], [],
        .fatal "image reference must include a tag; manifest-tool does not default to \x27latest\x27"⟩
    else if c.expandConfig && !c.raw then
      ⟨[.ParseName], [], [],
        .fatal "the --expand-config flag is only valid when used with --raw"⟩
    else
      match env.CreateRegistryHost with
      | some err =>
        ⟨[.ParseName, .NewMemoryStore, .CreateRegistryHost], [], [],
          .returned (some ("error creating registry host configuration: " ++ err))⟩
      | none =>
        let calls := [Call.ParseName, .NewMemoryStore, .CreateRegistryHost, .FetchDescriptor]
        let memoryStore := env.memoryStore
        let descriptor := env.FetchDescriptor.1
        let log : List String :=
          match env.FetchDescriptor.2 with
          | some err => [err]
          | none => []
        if c.raw then
          match generateRawJSON J name descriptor c.expandConfig memoryStore with
          | (_, some err) => ⟨calls, log, [], .fatal err⟩
          | (out, none) => ⟨calls, log, [out], .returned none⟩
        else
          let r := inspectHuman P J name memoryStore descriptor
          ⟨calls, log ++ r.1, r.2.stdout, r.2.termination⟩

/-! ## Vocabulary of the properties -/

/-- The attestation classification of an index entry: the annotation
`vnd.docker.reference.type` is present and equal to `attestation-manifest`. -/
def isAttestation (img : Descriptor) : Bool :=
  img.Annotations.lookup "vnd.docker.reference.type" == some "attestation-manifest"

/-- Number of entries classified as attestations. -/
def attestationCount (entries : List Descriptor) : Nat :=
  (entries.filter isAttestation).length

/-- The state `r` reached from the empty state, replayed after the state `st`. -/
def ListState.frame (st r : ListState) : ListState :=
  ⟨st.outputStr ++ r.outputStr, st.attestations + r.attestations⟩

/-- The lines the iteration for entry `img` at index `i` adds to the builder. -/
def entryBlock (P : Palette) (J : JSON) (cs : MemoryStore) (i : Nat) (img : Descriptor) :
    Except Termination (List String) :=
  (outputListStep P J cs i img ⟨[], 0⟩).map (fun r => r.outputStr)

/-- The lines the iterations for `entries`, numbered from index `i`, add to the builder. -/
def entryBlocks (P : Palette) (J : JSON) (cs : MemoryStore) (i : Nat)
    (entries : List Descriptor) : Except Termination (List String) :=
  (outputListLoop P J cs i entries ⟨[], 0⟩).map (fun r => r.outputStr)

/-- The three lines that open every entry block, for the entry at index `i`. -/
def entryHead (P : Palette) (i : Nat) (img : Descriptor) : List String :=
  ["[" ++ toString (i + 1) ++ "]" ++ "     Type: " ++ P.green img.MediaType ++
      P.green (if isAttestation img then " (vnd.docker.reference.type=attestation-manifest)"
        else ""),
   "[" ++ toString (i + 1) ++ "]" ++ "   Digest: " ++ P.yellow img.Digest,
   "[" ++ toString (i + 1) ++ "]" ++ "   Length: " ++ P.blue (toString img.Size)]

/-- The document `generateRawJSON` starts from for an index root, before its loop. -/
def indexJson.start (name : String) (descriptor : Descriptor) (idx : Index) : indexJson :=
  { Name := name
    Digest := descriptor.Digest
    SchemaVersion := idx.SchemaVersion
    MediaType := idx.MediaType
    Manifests := []
    Annotations := idx.Annotations }

/-- An index entry that raw mode cannot include: its media type is not a
manifest type, or its stored payload does not decode as a manifest. -/
def badEntry (J : JSON) (ms : MemoryStore) (m : Descriptor) : Prop :=
  isManifestType m.MediaType = false ∨ ∃ err, J.UnmarshalManifest (payload ms m) = .error err

/-- Some descriptor whose payload the pipeline decodes is absent from the store:
the root (of a recognized media type), an entry of manifest type of the decoded
root index, or the config of the decoded root manifest. -/
def absentDecoded (J : JSON) (ms : MemoryStore) (root : Descriptor) : Prop :=
  ((isIndexType root.MediaType = true ∨ isManifestType root.MediaType = true) ∧
      ms.Get root = none) ∨
  (isIndexType root.MediaType = true ∧
      ∃ idx, J.UnmarshalIndex (payload ms root) = .ok idx ∧
        ∃ m, m ∈ idx.Manifests ∧ isManifestType m.MediaType = true ∧ ms.Get m = none) ∨
  (isIndexType root.MediaType = false ∧ isManifestType root.MediaType = true ∧
      ∃ man, J.UnmarshalManifest (payload ms root) = .ok man ∧ ms.Get man.Config = none)

/-- The decoders reject the empty payload, as `json.Unmarshal` does
("unexpected end of JSON input"). -/
def rejectsEmpty (J : JSON) : Prop :=
  (∃ err, J.UnmarshalIndex [] = .error err) ∧
  (∃ err, J.UnmarshalManifest [] = .error err) ∧
  (∃ err, J.UnmarshalImage [] = .error err)

/-- How the iteration of `outputList` for entry `img` stops the process, if it does:
the payload of an entry of manifest type fails to decode, or an entry of manifest
type that is not an attestation has no platform. -/
def entryFault (J : JSON) (cs : MemoryStore) (img : Descriptor) : Option Termination :=
  if isManifestType img.MediaType then
    match J.UnmarshalManifest (payload cs img) with
    | .error err => some (.fatal err)
    | .ok _ =>
      if isAttestation img then none
      else
        match img.Platform with
        | none => some (.panic nilDeref)
        | some _ => none
  else none

/-- The fault of the first entry that has one. -/
def firstFault (J : JSON) (cs : MemoryStore) : List Descriptor → Option Termination
  | [] => none
  | img :: rest =>
    match entryFault J cs img with
    | some t => some t
    | none => firstFault J cs rest

/-- The document `generateRawJSON` builds for a manifest root in the default shape. -/
def manifestJson.start (name : String) (descriptor : Descriptor) (conf : Image)
    (man : ManifestTool.Manifest) : manifestJson :=
  { Name := name
    Digest := descriptor.Digest
    Os := conf.OS
    Arch := conf.Architecture
    Manifest := man }

/-- The document `generateRawJSON` builds for a manifest root in the
config-expanded shape. -/
def manifestConfigJson.start (name : String) (descriptor : Descriptor) (conf : Image)
    (man : Manifest) : manifestConfigJson :=
  { Name := name
    Digest := descriptor.Digest
    Os := conf.OS
    Arch := conf.Architecture
    Config := conf
    Layers := man.Layers
    SchemaVersion := man.SchemaVersion
    MediaType := man.MediaType
    Annotations := man.Annotations
    Subject := man.Subject }

/-- The `schemaVersion`, the `mediaType` and the ordered layer digests of a decoded
manifest. -/
def Manifest.roundTrip (man : Manifest) : Int × String × List String :=
  (man.SchemaVersion, man.MediaType, man.Layers.map (fun layer => layer.Digest))

/-- The `schemaVersion`, the `mediaType` and the ordered layer digests that a
single-manifest document carries under the keys `schemaVersion`, `mediaType` and
`layers`: those of the embedded manifest for `manifestJson`, the fields of that
name for `manifestConfigJson`. An index document is not a single-manifest one. -/
def RawJSON.roundTrip : RawJSON → Option (Int × String × List String)
  | .manifest v => some v.Manifest.roundTrip
  | .manifestConfig v =>
    some (v.SchemaVersion, v.MediaType, v.Layers.map (fun layer => layer.Digest))
  | .index _ => none

/-! ## Sample data -/

/-- A platform manifest with one layer. -/
def sampleManifest : Manifest :=
  { SchemaVersion := 2
    MediaType := MediaTypeImageManifest
    ArtifactType := ""
    Config := ⟨"application/vnd.oci.image.config.v1+json", "sha256:cfg", 7, [], none⟩
    Layers := [⟨"application/vnd.oci.image.layer.v1.tar+gzip", "sha256:aaa", 5, [], none⟩]
    Subject := none
    Annotations := [] }

/-- An index entry for a platform manifest (linux/amd64), stored under `sha256:m1`. -/
def sampleEntry : Descriptor :=
  ⟨MediaTypeImageManifest, "sha256:m1", 10, [], some ⟨"amd64", "linux", "", [], ""⟩⟩

/-- An index entry annotated as an attestation for `sha256:bbb`. -/
def sampleAttestation : Descriptor :=
  ⟨MediaTypeImageManifest, "sha256:m1", 10,
    [("vnd.docker.reference.type", "attestation-manifest"),
     ("vnd.docker.reference.digest", "sha256:bbb")], none⟩

/-- An index entry of a media type the command does not recognize, absent from the store. -/
def sampleUnknown : Descriptor :=
  ⟨"application/vnd.example.unknown", "sha256:zzz", 4, [], none⟩

/-- An index with two platform entries and one attestation. -/
def sampleIndex : Index :=
  ⟨2, MediaTypeImageIndex, [sampleEntry, sampleEntry, sampleAttestation], []⟩

/-- A root descriptor of index type, stored under `sha256:root`. -/
def sampleRoot : Descriptor := ⟨MediaTypeImageIndex, "sha256:root", 1, [], none⟩

/-- A root descriptor of manifest type, stored under `sha256:m1`. -/
def sampleManifestRoot : Descriptor := ⟨MediaTypeImageManifest, "sha256:m1", 10, [], none⟩

/-- A store holding the sample index, manifest and image configuration. -/
def sampleStore : MemoryStore :=
  ⟨[("sha256:root", MediaTypeImageIndex, [2]), ("sha256:m1", MediaTypeImageManifest, [1]),
    ("sha256:cfg", "application/vnd.oci.image.config.v1+json", [3])]⟩

/-- A codec that knows three payloads and rejects every other one, the empty
payload included; marshalling always succeeds. -/
def sampleJSON : JSON :=
  { UnmarshalIndex := fun b =>
      match b with
      | [2] => .ok sampleIndex
      | [] => .error "unexpected end of JSON input"
      | _ => .error "invalid character"
    UnmarshalManifest := fun b =>
      match b with
      | [1] => .ok sampleManifest
      | [] => .error "unexpected end of JSON input"
      | _ => .error "invalid character"
    UnmarshalImage := fun b =>
      match b with
      | [3] => .ok ⟨"amd64", "linux"⟩
      | [] => .error "unexpected end of JSON input"
      | _ => .error "invalid character"
    MarshalIndent := fun v =>
      match v with
      | .index j => .ok ("index " ++ j.Name ++ " " ++ toString j.Manifests.length)
      | .manifest j => .ok ("manifest " ++ j.Name)
      | .manifestConfig j => .ok ("manifest with config " ++ j.Name) }

/-- Collaborators that accept the reference and resolve it to `root`, the
sample store being filled. -/
def sampleEnv (root : Descriptor) : Collaborators :=
  ⟨.ok true, none, (root, none), sampleStore⟩

/-- A store holding the sample index only: the entries of the index are absent. -/
def sampleRootOnlyStore : MemoryStore :=
  ⟨[("sha256:root", MediaTypeImageIndex, [2])]⟩

/-- The sample codec, with the stored root decoding to an index of two platform
manifests. -/
def samplePlatformJSON : JSON :=
  { sampleJSON with
    UnmarshalIndex := fun b =>
      match b with
      | [2] => .ok ⟨2, MediaTypeImageIndex, [sampleEntry, sampleEntry], []⟩
      | _ => .error "unexpected end of JSON input" }

/-- An index entry annotated as an attestation for `sha256:bbb` whose media type
the command does not recognize; its payload is stored and decodes. -/
def sampleUntypedAttestation : Descriptor :=
  ⟨"application/vnd.in-toto+json", "sha256:m1", 10,
    [("vnd.docker.reference.type", "attestation-manifest"),
     ("vnd.docker.reference.digest", "sha256:bbb")], none⟩

/-- The default-shape document of the sample manifest. -/
def sampleManifestDoc : RawJSON :=
  .manifest (manifestJson.start "example.com/app:v1" sampleManifestRoot ⟨"amd64", "linux"⟩
    sampleManifest)

/-- The config-expanded document of the sample manifest. -/
def sampleManifestConfigDoc : RawJSON :=
  .manifestConfig (manifestConfigJson.start "example.com/app:v1" sampleManifestRoot
    ⟨"amd64", "linux"⟩ sampleManifest)

/-- The sample codec with a marshaller that encodes the two documents of the
sample manifest and no other value. -/
def sampleRoundTripJSON : JSON :=
  { sampleJSON with
    MarshalIndent := fun v =>
      if v = sampleManifestDoc then .ok "sample manifest document"
      else if v = sampleManifestConfigDoc then .ok "sample manifest document with config"
      else .error "json: unsupported value" }

/-- A reader of the documents of `sampleRoundTripJSON`: the `schemaVersion`, the
`mediaType` and the layer digests written in each. -/
def sampleRoundTripDecode (doc : String) : Option (Int × String × List String) :=
  if doc = "sample manifest document" then sampleManifestDoc.roundTrip
  else if doc = "sample manifest document with config" then sampleManifestConfigDoc.roundTrip
  else none

/-- The sample manifest root as a descriptor of Docker schema2 media type and of
another size: same digest, same stored bytes. -/
def sampleManifestRootAlt : Descriptor :=
  ⟨MediaTypeDockerSchema2Manifest, "sha256:m1", 11, [], none⟩

/-- The sample index root as a descriptor of Docker manifest list media type. -/
def sampleListRoot : Descriptor :=
  ⟨MediaTypeDockerSchema2ManifestList, "sha256:root", 1, [], none⟩

/-- An index entry for the manifest stored under `sha256:m1`, with another media
type, size and platform (linux/arm64/v8) than `sampleEntry`. -/
def sampleEntryAlt : Descriptor :=
  ⟨MediaTypeDockerSchema2Manifest, "sha256:m1", 99, [],
    some ⟨"arm64", "linux", "", [], "v8"⟩⟩

/-- An index like `sampleIndex` whose first entry is `sampleEntryAlt`. -/
def sampleIndexAlt : Index :=
  ⟨2, MediaTypeImageIndex, [sampleEntryAlt, sampleEntry, sampleAttestation], []⟩

/-- A store like `sampleStore` whose root payload is that of `sampleIndexAlt`. -/
def sampleStoreAlt : MemoryStore :=
  ⟨[("sha256:root", MediaTypeImageIndex, [4]), ("sha256:m1", MediaTypeImageManifest, [1]),
    ("sha256:cfg", "application/vnd.oci.image.config.v1+json", [3])]⟩

/-- The decoders of the sample codec, extended with the payload of `sampleIndexAlt`,
with an arbitrary marshaller. -/
def sampleJSONWith (marshal : RawJSON → Except String String) : JSON :=
  { sampleJSON with
    UnmarshalIndex := fun b =>
      match b with
      | [2] => .ok sampleIndex
      | [4] => .ok sampleIndexAlt
      | [] => .error "unexpected end of JSON input"
      | _ => .error "invalid character"
    MarshalIndent := marshal }

/-- An index entry of manifest type, not an attestation, whose descriptor has no
platform. -/
def sampleEntryNoPlatform : Descriptor :=
  ⟨MediaTypeImageManifest, "sha256:m1", 10, [], none⟩

/-- An index entry of manifest type that is absent from the sample store. -/
def sampleEntryAbsent : Descriptor :=
  ⟨MediaTypeImageManifest, "sha256:gone", 10, [], some ⟨"amd64", "linux", "", [], ""⟩⟩

/-- The sample manifest with an artifact type. -/
def sampleArtifactManifest : Manifest :=
  { sampleManifest with ArtifactType := "application/vnd.example.artifact" }

/-- A root descriptor of manifest type, stored under `sha256:m5`. -/
def sampleArtifactRoot : Descriptor := ⟨MediaTypeImageManifest, "sha256:m5", 12, [], none⟩

/-- An index whose only entry is `sampleEntryNoPlatform`. -/
def sampleIndexNoPlatform : Index :=
  ⟨2, MediaTypeImageIndex, [sampleEntryNoPlatform], []⟩

/-- A store holding the index `sampleIndexNoPlatform` under the root digest, the
sample manifest, the sample manifest with an artifact type, and the image
configuration. -/
def sampleStoreExtra : MemoryStore :=
  ⟨[("sha256:root", MediaTypeImageIndex, [6]), ("sha256:m1", MediaTypeImageManifest, [1]),
    ("sha256:m5", MediaTypeImageManifest, [5]),
    ("sha256:cfg", "application/vnd.oci.image.config.v1+json", [3])]⟩

/-- A marshaller that writes, for an index document, the number of its manifests,
and for a single-manifest document in the default shape, the artifact type of
the embedded manifest. -/
def sampleFieldMarshal (v : RawJSON) : Except String String :=
  match v with
  | .index j => .ok ("index " ++ j.Name ++ " manifests=" ++ toString j.Manifests.length)
  | .manifest j => .ok ("manifest " ++ j.Name ++ " artifactType=" ++ j.Manifest.ArtifactType)
  | .manifestConfig j => .ok ("manifest with config " ++ j.Name)

/-- The decoders of the sample codec, extended with the payloads of
`sampleIndexNoPlatform` and of `sampleArtifactManifest`, with an arbitrary
marshaller. -/
def sampleJSONExtra (marshal : RawJSON → Except String String) : JSON :=
  { sampleJSON with
    UnmarshalIndex := fun b =>
      match b with
      | [2] => .ok sampleIndex
      | [6] => .ok sampleIndexNoPlatform
      | [] => .error "unexpected end of JSON input"
      | _ => .error "invalid character"
    UnmarshalManifest := fun b =>
      match b with
      | [1] => .ok sampleManifest
      | [5] => .ok sampleArtifactManifest
      | [] => .error "unexpected end of JSON input"
      | _ => .error "invalid character"
    MarshalIndent := marshal }

/-! ## Lemmas on the loop of `outputList` -/

theorem attestationDetail_length :
    " (vnd.docker.reference.type=attestation-manifest)".length > 0 := by decide

theorem isAttestation_eq (img : Descriptor) :
    (match img.Annotations.lookup "vnd.docker.reference.type" with
      | some aRefType => aRefType == "attestation-manifest"
      | none => false) = isAttestation img := by
  unfold isAttestation
  cases img.Annotations.lookup "vnd.docker.reference.type" <;> simp

theorem ListState.frame_assoc (a b c : ListState) :
    ListState.frame a (ListState.frame b c) = ListState.frame (ListState.frame a b) c := by
  simp [ListState.frame, List.append_assoc, Nat.add_assoc]

theorem outputListStep_frame (P : Palette) (J : JSON) (cs : MemoryStore) (i : Nat)
    (img : Descriptor) (st : ListState) :
    outputListStep P J cs i img st =
      (outputListStep P J cs i img ⟨[], 0⟩).map (ListState.frame st) := by
  unfold outputListStep
  simp only []
  split_ifs <;> (try split) <;> (try split) <;>
    simp [Except.map, ListState.frame, List.append_assoc]

theorem outputListLoop_frame (P : Palette) (J : JSON) (cs : MemoryStore)
    (entries : List Descriptor) :
    ∀ (i : Nat) (st : ListState), outputListLoop P J cs i entries st =
      (outputListLoop P J cs i entries ⟨[], 0⟩).map (ListState.frame st) := by
  induction entries with
  | nil => intro i st; simp [outputListLoop, Except.map, ListState.frame]
  | cons img rest ih =>
    intro i st
    simp only [outputListLoop]
    rw [outputListStep_frame P J cs i img st]
    cases hstep : outputListStep P J cs i img ⟨[], 0⟩ with
    | error t => simp [Except.map]
    | ok r =>
      simp only [Except.map]
      rw [ih (i + 1) (ListState.frame st r), ih (i + 1) r]
      cases outputListLoop P J cs (i + 1) rest ⟨[], 0⟩ with
      | error t => simp [Except.map]
      | ok q => simp [Except.map, ListState.frame_assoc]

theorem outputListLoop_append (P : Palette) (J : JSON) (cs : MemoryStore)
    (l1 l2 : List Descriptor) :
    ∀ (i : Nat) (st : ListState), outputListLoop P J cs i (l1 ++ l2) st =
      match outputListLoop P J cs i l1 st with
      | .error t => .error t
      | .ok s => outputListLoop P J cs (i + l1.length) l2 s := by
  induction l1 with
  | nil => intro i st; simp [outputListLoop]
  | cons img rest ih =>
    intro i st
    simp only [List.cons_append, outputListLoop, List.length_cons]
    cases outputListStep P J cs i img st with
    | error t => simp
    | ok r =>
      have hlen : i + 1 + rest.length = i + (rest.length + 1) := by omega
      simpa [hlen] using ih (i + 1) r

theorem outputListStep_unknown (P : Palette) (J : JSON) (cs : MemoryStore) (i : Nat)
    (img : Descriptor) (st : ListState) (hu : isManifestType img.MediaType = false) :
    outputListStep P J cs i img st =
      .ok ⟨st.outputStr ++ (entryHead P i img ++
            ["Unknown media type for further display: " ++ img.MediaType]),
          st.attestations + (if isAttestation img then 1 else 0)⟩ := by
  unfold outputListStep
  rw [isAttestation_eq]
  cases hatt : isAttestation img <;> simp [hu, entryHead, hatt]

theorem outputListStep_attestation (P : Palette) (J : JSON) (cs : MemoryStore) (i : Nat)
    (img : Descriptor) (st : ListState) (man : Manifest)
    (hm : isManifestType img.MediaType = true)
    (hdec : J.UnmarshalManifest (payload cs img) = .ok man)
    (hatt : isAttestation img = true) :
    outputListStep P J cs i img st =
      .ok ⟨st.outputStr ++ (entryHead P i img ++
            ["[" ++ toString (i + 1) ++ "]" ++ "       >>> Attestation for digest: " ++
                P.yellow ((img.Annotations.lookup "vnd.docker.reference.digest").getD ""),
             ""]),
          st.attestations + 1⟩ := by
  unfold outputListStep
  rw [isAttestation_eq]
  simp [hm, hdec, hatt, entryHead, attestationDetail_length]

theorem outputListStep_platform (P : Palette) (J : JSON) (cs : MemoryStore) (i : Nat)
    (img : Descriptor) (st : ListState) (man : Manifest) (platform : Platform)
    (hm : isManifestType img.MediaType = true)
    (hdec : J.UnmarshalManifest (payload cs img) = .ok man)
    (hatt : isAttestation img = false) (hp : img.Platform = some platform) :
    outputListStep P J cs i img st =
      .ok ⟨st.outputStr ++ (entryHead P i img ++
            outputListPlatform P ("[" ++ toString (i + 1) ++ "]") platform ++
            ["[" ++ toString (i + 1) ++ "]" ++ " # Layers: " ++
              P.red (toString man.Layers.length)] ++
            outputListLayers P 0 man.Layers ++ [""]),
          st.attestations⟩ := by
  unfold outputListStep
  rw [isAttestation_eq]
  simp [hm, hdec, hatt, hp, entryHead]

theorem outputListStep_decode_error (P : Palette) (J : JSON) (cs : MemoryStore) (i : Nat)
    (img : Descriptor) (st : ListState) (err : String)
    (hm : isManifestType img.MediaType = true)
    (hdec : J.UnmarshalManifest (payload cs img) = .error err) :
    outputListStep P J cs i img st = .error (.fatal err) := by
  unfold outputListStep
  simp [hm, hdec]

theorem outputListStep_nil_platform (P : Palette) (J : JSON) (cs : MemoryStore) (i : Nat)
    (img : Descriptor) (st : ListState) (man : Manifest)
    (hm : isManifestType img.MediaType = true)
    (hdec : J.UnmarshalManifest (payload cs img) = .ok man)
    (hatt : isAttestation img = false) (hp : img.Platform = none) :
    outputListStep P J cs i img st = .error (.panic nilDeref) := by
  unfold outputListStep
  rw [isAttestation_eq]
  simp [hm, hdec, hatt, hp]

/-- An iteration that succeeds counts the entry as an attestation exactly when
the entry is classified as one. -/
theorem outputListStep_attestations (P : Palette) (J : JSON) (cs : MemoryStore) (i : Nat)
    (img : Descriptor) (st st2 : ListState) (h : outputListStep P J cs i img st = .ok st2) :
    st2.attestations = st.attestations + (if isAttestation img then 1 else 0) := by
  cases hm : isManifestType img.MediaType with
  | false =>
    rw [outputListStep_unknown P J cs i img st hm] at h
    cases h
    rfl
  | true =>
    cases hdec : J.UnmarshalManifest (payload cs img) with
    | error err =>
      rw [outputListStep_decode_error P J cs i img st err hm hdec] at h
      cases h
    | ok man =>
      cases hatt : isAttestation img with
      | true =>
        rw [outputListStep_attestation P J cs i img st man hm hdec hatt] at h
        cases h
        simp
      | false =>
        cases hp : img.Platform with
        | none =>
          rw [outputListStep_nil_platform P J cs i img st man hm hdec hatt hp] at h
          cases h
        | some platform =>
          rw [outputListStep_platform P J cs i img st man platform hm hdec hatt hp] at h
          cases h
          simp

theorem outputListLoop_attestations (P : Palette) (J : JSON) (cs : MemoryStore)
    (entries : List Descriptor) :
    ∀ (i : Nat) (st st2 : ListState), outputListLoop P J cs i entries st = .ok st2 →
      st2.attestations = st.attestations + attestationCount entries := by
  induction entries with
  | nil =>
    intro i st st2 h
    simp [outputListLoop] at h
    simp [← h, attestationCount]
  | cons img rest ih =>
    intro i st st2 h
    simp only [outputListLoop] at h
    cases hstep : outputListStep P J cs i img st with
    | error t => simp [hstep] at h
    | ok r =>
      simp only [hstep] at h
      have h1 := outputListStep_attestations P J cs i img st r hstep
      have h2 := ih (i + 1) r st2 h
      rw [h2, h1]
      unfold attestationCount
      cases hatt : isAttestation img
      · simp [List.filter, hatt]
      · simp [List.filter, hatt]
        omega

/-- An iteration stops the process only by `logrus.Fatal` or by a panic. -/
theorem outputListStep_error (P : Palette) (J : JSON) (cs : MemoryStore) (i : Nat)
    (img : Descriptor) (st : ListState) (t : Termination)
    (h : outputListStep P J cs i img st = .error t) :
    ∃ msg, t = .fatal msg ∨ t = .panic msg := by
  cases hm : isManifestType img.MediaType with
  | false =>
    rw [outputListStep_unknown P J cs i img st hm] at h
    cases h
  | true =>
    cases hdec : J.UnmarshalManifest (payload cs img) with
    | error err =>
      rw [outputListStep_decode_error P J cs i img st err hm hdec] at h
      cases h
      exact ⟨err, Or.inl rfl⟩
    | ok man =>
      cases hatt : isAttestation img with
      | true =>
        rw [outputListStep_attestation P J cs i img st man hm hdec hatt] at h
        cases h
      | false =>
        cases hp : img.Platform with
        | none =>
          rw [outputListStep_nil_platform P J cs i img st man hm hdec hatt hp] at h
          cases h
          exact ⟨nilDeref, Or.inr rfl⟩
        | some platform =>
          rw [outputListStep_platform P J cs i img st man platform hm hdec hatt hp] at h
          cases h

theorem outputListLoop_error (P : Palette) (J : JSON) (cs : MemoryStore)
    (entries : List Descriptor) :
    ∀ (i : Nat) (st : ListState) (t : Termination),
      outputListLoop P J cs i entries st = .error t → ∃ msg, t = .fatal msg ∨ t = .panic msg := by
  induction entries with
  | nil => intro i st t h; simp [outputListLoop] at h
  | cons img rest ih =>
    intro i st t h
    simp only [outputListLoop] at h
    cases hstep : outputListStep P J cs i img st with
    | error t2 =>
      simp only [hstep] at h
      cases h
      exact outputListStep_error P J cs i img st t hstep
    | ok r =>
      simp only [hstep] at h
      exact ih (i + 1) r t h

/-- When the loop finishes, `outputList` prints the header, the summary line and
the collected entry blocks, and returns. -/
theorem outputList_of_loop_ok (P : Palette) (J : JSON) (name : String) (cs : MemoryStore)
    (descriptor : Descriptor) (index : Index) (st : ListState)
    (h : outputListLoop P J cs 0 index.Manifests ⟨[], 0⟩ = .ok st) :
    outputList P J name cs descriptor index =
      ⟨listHeader P name descriptor ++
        [summaryLine P index.Manifests.length
          ((index.Manifests.length : Int) - (attestationCount index.Manifests : Int))
          (attestationCount index.Manifests)] ++ st.outputStr, .returned none⟩ := by
  have ha := outputListLoop_attestations P J cs index.Manifests 0 ⟨[], 0⟩ st h
  simp only [Nat.zero_add] at ha
  unfold outputList
  simp only [h, ha]

/-- When the loop stops, `outputList` has printed its two header lines only. -/
theorem outputList_of_loop_error (P : Palette) (J : JSON) (name : String) (cs : MemoryStore)
    (descriptor : Descriptor) (index : Index) (t : Termination)
    (h : outputListLoop P J cs 0 index.Manifests ⟨[], 0⟩ = .error t) :
    outputList P J name cs descriptor index = ⟨listHeader P name descriptor, t⟩ := by
  unfold outputList
  simp only [h]

theorem outputList_returned (P : Palette) (J : JSON) (name : String) (cs : MemoryStore)
    (descriptor : Descriptor) (index : Index)
    (h : (outputList P J name cs descriptor index).termination = .returned none) :
    ∃ st, outputListLoop P J cs 0 index.Manifests ⟨[], 0⟩ = .ok st := by
  cases hloop : outputListLoop P J cs 0 index.Manifests ⟨[], 0⟩ with
  | ok st => exact ⟨st, rfl⟩
  | error t =>
    rw [outputList_of_loop_error P J name cs descriptor index t hloop] at h
    obtain ⟨msg, hmsg | hmsg⟩ := outputListLoop_error P J cs _ 0 _ t hloop <;>
      simp_all

/-! ### Lemmas on `generateRawJSON` and the store -/

theorem payload_of_absent (ms : MemoryStore) (desc : Descriptor) (h : ms.Get desc = none) :
    payload ms desc = [] := by
  unfold payload
  rw [h]

theorem generateRawJSON_index (J : JSON) (name : String) (descriptor : Descriptor)
    (expandConfig : Bool) (ms : MemoryStore) (idx : Index)
    (hroot : isIndexType descriptor.MediaType = true)
    (hdec : J.UnmarshalIndex (payload ms descriptor) = .ok idx) :
    generateRawJSON J name descriptor expandConfig ms =
      match generateRawJSONLoop J ms idx.Manifests (indexJson.start name descriptor idx) with
      | .error err => ("", some err)
      | .ok indexJSON =>
        match J.MarshalIndent (.index indexJSON) with
        | .error err => ("", some err)
        | .ok b => (b, none) := by
  unfold generateRawJSON
  simp only [hroot, hdec, if_true, indexJson.start]

theorem generateRawJSON_index_decode_error (J : JSON) (name : String) (descriptor : Descriptor)
    (expandConfig : Bool) (ms : MemoryStore) (err : String)
    (hroot : isIndexType descriptor.MediaType = true)
    (hdec : J.UnmarshalIndex (payload ms descriptor) = .error err) :
    generateRawJSON J name descriptor expandConfig ms = ("", some err) := by
  unfold generateRawJSON
  simp only [hroot, hdec, if_true]

theorem generateRawJSONLoop_bad (J : JSON) (ms : MemoryStore) (entries : List Descriptor) :
    ∀ (indexJSON : indexJson) (m : Descriptor), m ∈ entries → badEntry J ms m →
      ∃ err, generateRawJSONLoop J ms entries indexJSON = .error err := by
  induction entries with
  | nil => intro _ m hm; cases hm
  | cons e rest ih =>
    intro indexJSON m hm hbad
    simp only [generateRawJSONLoop]
    cases he : isManifestType e.MediaType with
    | false => exact ⟨"unknown media type for further display: " ++ e.MediaType, by simp⟩
    | true =>
      simp only [if_true]
      cases hdec : J.UnmarshalManifest (payload ms e) with
      | error err => exact ⟨err, rfl⟩
      | ok image =>
        simp only []
        rcases List.mem_cons.mp hm with rfl | hrest
        · rcases hbad with hb | ⟨err, hb⟩
          · rw [he] at hb; cases hb
          · rw [hdec] at hb; cases hb
        · exact ih _ m hrest hbad

theorem generateRawJSONLoop_error (J : JSON) (ms : MemoryStore) (entries : List Descriptor) :
    ∀ (indexJSON : indexJson) (err : String),
      generateRawJSONLoop J ms entries indexJSON = .error err →
      ∃ m, m ∈ entries ∧ badEntry J ms m := by
  induction entries with
  | nil => intro _ err h; simp [generateRawJSONLoop] at h
  | cons e rest ih =>
    intro indexJSON err h
    simp only [generateRawJSONLoop] at h
    cases he : isManifestType e.MediaType with
    | false => exact ⟨e, List.mem_cons_self _ _, Or.inl he⟩
    | true =>
      simp only [he, if_true] at h
      cases hdec : J.UnmarshalManifest (payload ms e) with
      | error err2 => exact ⟨e, List.mem_cons_self _ _, Or.inr ⟨err2, hdec⟩⟩
      | ok image =>
        simp only [hdec] at h
        obtain ⟨m, hm, hbad⟩ := ih _ err h
        exact ⟨m, List.mem_cons_of_mem _ hm, hbad⟩

theorem outputListLoop_decode_error (P : Palette) (J : JSON) (cs : MemoryStore)
    (entries : List Descriptor) :
    ∀ (i : Nat) (st : ListState) (m : Descriptor), m ∈ entries →
      isManifestType m.MediaType = true →
      (∃ err, J.UnmarshalManifest (payload cs m) = .error err) →
      ∃ t, outputListLoop P J cs i entries st = .error t := by
  induction entries with
  | nil => intro _ _ m hm; cases hm
  | cons e rest ih =>
    intro i st m hm hmt hdec
    simp only [outputListLoop]
    cases hstep : outputListStep P J cs i e st with
    | error t => exact ⟨t, rfl⟩
    | ok r =>
      simp only []
      rcases List.mem_cons.mp hm with rfl | hrest
      · obtain ⟨err, herr⟩ := hdec
        rw [outputListStep_decode_error P J cs i m st err hmt herr] at hstep
        cases hstep
      · exact ih (i + 1) r m hrest hmt hdec

/-- A run of `outputList` whose loop has stopped has been terminated by
`logrus.Fatal` or by a panic. -/
theorem outputList_stopped (P : Palette) (J : JSON) (name : String) (cs : MemoryStore)
    (descriptor : Descriptor) (index : Index) (t : Termination)
    (h : outputListLoop P J cs 0 index.Manifests ⟨[], 0⟩ = .error t) :
    ∃ msg, (outputList P J name cs descriptor index).termination = .fatal msg ∨
      (outputList P J name cs descriptor index).termination = .panic msg := by
  rw [outputList_of_loop_error P J name cs descriptor index t h]
  exact outputListLoop_error P J cs _ 0 _ t h

/-- When the loop of `generateRawJSON` finishes it has appended, in order, one
decoded manifest per entry, and changed nothing else in the document. -/
theorem generateRawJSONLoop_ok (J : JSON) (ms : MemoryStore) (entries : List Descriptor) :
    ∀ (indexJSON v : indexJson), generateRawJSONLoop J ms entries indexJSON = .ok v →
      ∃ images : List Manifest,
        v = { indexJSON with Manifests := indexJSON.Manifests ++ images } ∧
        images.length = entries.length ∧
        ∀ (i : Nat) (m : Descriptor), entries[i]? = some m →
          ∃ image, images[i]? = some image ∧ isManifestType m.MediaType = true ∧
            J.UnmarshalManifest (payload ms m) = .ok image := by
  induction entries with
  | nil =>
    intro indexJSON v h
    simp only [generateRawJSONLoop] at h
    cases h
    exact ⟨[], by simp, rfl, by simp⟩
  | cons e rest ih =>
    intro indexJSON v h
    simp only [generateRawJSONLoop] at h
    cases he : isManifestType e.MediaType with
    | false => simp [he] at h
    | true =>
      simp only [he, if_true] at h
      cases hdec : J.UnmarshalManifest (payload ms e) with
      | error err => simp [hdec] at h
      | ok image0 =>
        simp only [hdec] at h
        obtain ⟨images, hv, hlen, hget⟩ := ih _ v h
        refine ⟨image0 :: images, ?_, by simp [hlen], ?_⟩
        · rw [hv]
          simp [List.append_assoc]
        · intro i m hi
          cases i with
          | zero =>
            simp only [List.getElem?_cons_zero, Option.some.injEq] at hi
            subst hi
            exact ⟨image0, by simp, he, hdec⟩
          | succ k =>
            simp only [List.getElem?_cons_succ] at hi
            simpa using hget k m hi

/-- The loop of `generateRawJSON` finishes when no entry is bad. -/
theorem generateRawJSONLoop_total (J : JSON) (ms : MemoryStore) (entries : List Descriptor)
    (indexJSON : indexJson) (h : ∀ m, m ∈ entries → ¬ badEntry J ms m) :
    ∃ v, generateRawJSONLoop J ms entries indexJSON = .ok v := by
  cases hloop : generateRawJSONLoop J ms entries indexJSON with
  | ok v => exact ⟨v, rfl⟩
  | error err =>
    obtain ⟨m, hm, hbad⟩ := generateRawJSONLoop_error J ms entries indexJSON err hloop
    exact absurd hbad (h m hm)

/-- The loop of `outputList` finishes when every entry has a manifest media type
and a decodable payload, and is an attestation or carries a platform. -/
theorem outputListLoop_total (P : Palette) (J : JSON) (cs : MemoryStore)
    (entries : List Descriptor) :
    ∀ (i : Nat) (st : ListState),
      (∀ m, m ∈ entries → isManifestType m.MediaType = true ∧
        (∃ man, J.UnmarshalManifest (payload cs m) = .ok man) ∧
        (isAttestation m = true ∨ ∃ platform, m.Platform = some platform)) →
      ∃ st2, outputListLoop P J cs i entries st = .ok st2 := by
  induction entries with
  | nil => intro i st _; exact ⟨st, rfl⟩
  | cons e rest ih =>
    intro i st h
    obtain ⟨hm, ⟨man, hdec⟩, hap⟩ := h e (List.mem_cons_self _ _)
    have hrest : ∀ m, m ∈ rest → isManifestType m.MediaType = true ∧
        (∃ man, J.UnmarshalManifest (payload cs m) = .ok man) ∧
        (isAttestation m = true ∨ ∃ platform, m.Platform = some platform) :=
      fun m hmem => h m (List.mem_cons_of_mem _ hmem)
    simp only [outputListLoop]
    cases hatt : isAttestation e with
    | true =>
      rw [outputListStep_attestation P J cs i e st man hm hdec hatt]
      exact ih (i + 1) _ hrest
    | false =>
      rcases hap with h1 | ⟨platform, hp⟩
      · rw [hatt] at h1; cases h1
      · rw [outputListStep_platform P J cs i e st man platform hm hdec hatt hp]
        exact ih (i + 1) _ hrest

theorem attestationCount_eq_zero (entries : List Descriptor)
    (h : ∀ m, m ∈ entries → isAttestation m = false) : attestationCount entries = 0 := by
  unfold attestationCount
  rw [List.length_eq_zero, List.filter_eq_nil_iff]
  intro m hm
  simp [h m hm]

/-! ### Faults of the loop of `outputList` -/

theorem outputListStep_of_fault (P : Palette) (J : JSON) (cs : MemoryStore) (i : Nat)
    (img : Descriptor) (st : ListState) (t : Termination)
    (h : entryFault J cs img = some t) : outputListStep P J cs i img st = .error t := by
  unfold entryFault at h
  cases hm : isManifestType img.MediaType with
  | false => simp [hm] at h
  | true =>
    simp only [hm, if_true] at h
    cases hdec : J.UnmarshalManifest (payload cs img) with
    | error err =>
      simp only [hdec, Option.some.injEq] at h
      rw [← h]
      exact outputListStep_decode_error P J cs i img st err hm hdec
    | ok man =>
      simp only [hdec] at h
      cases hatt : isAttestation img with
      | true => simp [hatt] at h
      | false =>
        simp only [hatt] at h
        cases hp : img.Platform with
        | some platform => simp [hp] at h
        | none =>
          simp only [hp, Bool.false_eq_true, if_false, Option.some.injEq] at h
          rw [← h]
          exact outputListStep_nil_platform P J cs i img st man hm hdec hatt hp

theorem outputListStep_of_no_fault (P : Palette) (J : JSON) (cs : MemoryStore) (i : Nat)
    (img : Descriptor) (st : ListState) (h : entryFault J cs img = none) :
    ∃ st2, outputListStep P J cs i img st = .ok st2 := by
  unfold entryFault at h
  cases hm : isManifestType img.MediaType with
  | false => exact ⟨_, outputListStep_unknown P J cs i img st hm⟩
  | true =>
    simp only [hm, if_true] at h
    cases hdec : J.UnmarshalManifest (payload cs img) with
    | error err => simp [hdec] at h
    | ok man =>
      simp only [hdec] at h
      cases hatt : isAttestation img with
      | true => exact ⟨_, outputListStep_attestation P J cs i img st man hm hdec hatt⟩
      | false =>
        simp only [hatt] at h
        cases hp : img.Platform with
        | none => simp [hp] at h
        | some platform =>
          exact ⟨_, outputListStep_platform P J cs i img st man platform hm hdec hatt hp⟩

/-- The loop stops exactly at the first entry with a fault, whatever the palette,
the starting index and the state. -/
theorem outputListLoop_fault (P : Palette) (J : JSON) (cs : MemoryStore)
    (entries : List Descriptor) :
    ∀ (i : Nat) (st : ListState),
      match firstFault J cs entries with
      | some t => outputListLoop P J cs i entries st = .error t
      | none => ∃ st2, outputListLoop P J cs i entries st = .ok st2 := by
  induction entries with
  | nil => intro i st; exact ⟨st, rfl⟩
  | cons img rest ih =>
    intro i st
    simp only [firstFault, outputListLoop]
    cases hf : entryFault J cs img with
    | some t =>
      simp only []
      rw [outputListStep_of_fault P J cs i img st t hf]
    | none =>
      obtain ⟨st2, hst2⟩ := outputListStep_of_no_fault P J cs i img st hf
      simp only [hst2]
      exact ih (i + 1) st2

theorem firstFault_append (J : JSON) (cs : MemoryStore) (l1 l2 : List Descriptor) :
    firstFault J cs (l1 ++ l2) =
      match firstFault J cs l1 with
      | some t => some t
      | none => firstFault J cs l2 := by
  induction l1 with
  | nil => rfl
  | cons img rest ih =>
    simp only [List.cons_append, firstFault]
    cases entryFault J cs img with
    | some t => rfl
    | none => exact ih

/-- The termination of `outputList` is decided by the first fault of its entries. -/
theorem outputList_termination (P : Palette) (J : JSON) (name : String) (cs : MemoryStore)
    (descriptor : Descriptor) (index : Index) :
    (outputList P J name cs descriptor index).termination =
      match firstFault J cs index.Manifests with
      | some t => t
      | none => .returned none := by
  have h := outputListLoop_fault P J cs index.Manifests 0 ⟨[], 0⟩
  cases hf : firstFault J cs index.Manifests with
  | some t =>
    simp only [hf] at h
    rw [outputList_of_loop_error P J name cs descriptor index t h]
  | none =>
    simp only [hf] at h
    obtain ⟨st2, hst2⟩ := h
    rw [outputList_of_loop_ok P J name cs descriptor index st2 hst2]

/-- The builder after the loop over `l1 ++ l2` holds the blocks of `l1` followed by
the blocks of `l2`, numbered from the length of `l1`. -/
theorem entryBlocks_append (P : Palette) (J : JSON) (cs : MemoryStore) (i : Nat)
    (l1 l2 : List Descriptor) (b1 b2 : List String)
    (h1 : entryBlocks P J cs i l1 = .ok b1)
    (h2 : entryBlocks P J cs (i + l1.length) l2 = .ok b2) :
    entryBlocks P J cs i (l1 ++ l2) = .ok (b1 ++ b2) := by
  unfold entryBlocks at *
  rw [outputListLoop_append]
  cases hl1 : outputListLoop P J cs i l1 ⟨[], 0⟩ with
  | error t => simp [hl1, Except.map] at h1
  | ok s1 =>
    simp only [hl1, Except.map, Except.ok.injEq] at h1
    simp only []
    rw [outputListLoop_frame]
    cases hl2 : outputListLoop P J cs (i + l1.length) l2 ⟨[], 0⟩ with
    | error t => simp [hl2, Except.map] at h2
    | ok s2 =>
      simp only [hl2, Except.map, Except.ok.injEq] at h2
      simp [Except.map, ListState.frame, h1, h2]

theorem entryBlocks_singleton (P : Palette) (J : JSON) (cs : MemoryStore) (i : Nat)
    (img : Descriptor) : entryBlocks P J cs i [img] = entryBlock P J cs i img := by
  unfold entryBlocks entryBlock
  simp only [outputListLoop]
  cases outputListStep P J cs i img ⟨[], 0⟩ <;> rfl

/-- The standard output of a run of `outputList` whose blocks are `b`. -/
theorem outputList_of_blocks (P : Palette) (J : JSON) (name : String) (cs : MemoryStore)
    (descriptor : Descriptor) (index : Index) (b : List String)
    (h : entryBlocks P J cs 0 index.Manifests = .ok b) :
    outputList P J name cs descriptor index =
      ⟨listHeader P name descriptor ++
        [summaryLine P index.Manifests.length
          ((index.Manifests.length : Int) - (attestationCount index.Manifests : Int))
          (attestationCount index.Manifests)] ++ b, .returned none⟩ := by
  unfold entryBlocks at h
  cases hl : outputListLoop P J cs 0 index.Manifests ⟨[], 0⟩ with
  | error t => simp [hl, Except.map] at h
  | ok st =>
    simp only [hl, Except.map, Except.ok.injEq] at h
    rw [outputList_of_loop_ok P J name cs descriptor index st hl, h]

/-! ### Lemmas on `outputImage` -/

theorem outputImageLayers_length (P : Palette) (layers : List Descriptor) :
    ∀ i : Nat, (outputImageLayers P i layers).length = layers.length := by
  induction layers with
  | nil => intro i; rfl
  | cons layer rest ih => intro i; simp [outputImageLayers, ih]

theorem outputImageLayers_getElem? (P : Palette) (layers : List Descriptor) :
    ∀ (i k : Nat) (layer : Descriptor), layers[k]? = some layer →
      (outputImageLayers P i layers)[k]? =
        some ("      layer " ++ P.red (pad2 (i + k + 1)) ++ ": digest = " ++
          P.yellow layer.Digest) := by
  induction layers with
  | nil => intro i k layer h; simp at h
  | cons first rest ih =>
    intro i k layer h
    cases k with
    | zero =>
      simp only [List.getElem?_cons_zero, Option.some.injEq] at h
      subst h
      simp [outputImageLayers]
    | succ n =>
      simp only [List.getElem?_cons_succ] at h
      simp only [outputImageLayers, List.getElem?_cons_succ]
      rw [ih (i + 1) n layer h]
      have hidx : i + 1 + n + 1 = i + (n + 1) + 1 := by omega
      rw [hidx]

/-! ### Roots of unrecognized media type -/

theorem generateRawJSON_unknown_root (J : JSON) (name : String) (descriptor : Descriptor)
    (expandConfig : Bool) (ms : MemoryStore)
    (hi : isIndexType descriptor.MediaType = false)
    (hm : isManifestType descriptor.MediaType = false) :
    generateRawJSON J name descriptor expandConfig ms =
      ("", some ("unknown descriptor type: " ++ descriptor.MediaType)) := by
  unfold generateRawJSON
  simp [hi, hm]

theorem inspectHuman_unknown_root (P : Palette) (J : JSON) (name : String) (ms : MemoryStore)
    (descriptor : Descriptor)
    (hi : isIndexType descriptor.MediaType = false)
    (hm : isManifestType descriptor.MediaType = false) :
    inspectHuman P J name ms descriptor =
      (["Unknown descriptor type: " ++ descriptor.MediaType], ⟨[], .returned none⟩) := by
  unfold inspectHuman
  simp [hi, hm]

/-! ### Lemmas on `generateRawJSON` for a manifest root -/

theorem isIndexType_of_isManifestType (mediaType : String)
    (h : isManifestType mediaType = true) : isIndexType mediaType = false := by
  unfold isManifestType at h
  simp only [Bool.or_eq_true, beq_iff_eq] at h
  rcases h with rfl | rfl <;> decide

/-- The value `generateRawJSON` hands to `json.MarshalIndent` for a manifest root. -/
theorem generateRawJSON_manifest (J : JSON) (name : String) (descriptor : Descriptor)
    (expandConfig : Bool) (ms : MemoryStore) (man : Manifest) (conf : Image)
    (hroot : isManifestType descriptor.MediaType = true)
    (hman : J.UnmarshalManifest (payload ms descriptor) = .ok man)
    (hconf : J.UnmarshalImage (payload ms man.Config) = .ok conf) :
    generateRawJSON J name descriptor expandConfig ms =
      match J.MarshalIndent
          (if !expandConfig then .manifest (manifestJson.start name descriptor conf man)
            else .manifestConfig (manifestConfigJson.start name descriptor conf man)) with
      | .error err => ("", some err)
      | .ok b => (b, none) := by
  unfold generateRawJSON
  simp only [isIndexType_of_isManifestType _ hroot, hroot, hman, hconf, if_true,
    manifestJson.start, manifestConfigJson.start]
  rfl

/-- A successful `generateRawJSON` on a manifest root has decoded the manifest and
its image config and returns the marshalled document of the requested shape. -/
theorem generateRawJSON_manifest_ok (J : JSON) (name : String) (descriptor : Descriptor)
    (expandConfig : Bool) (ms : MemoryStore) (doc : String)
    (hroot : isManifestType descriptor.MediaType = true)
    (hok : generateRawJSON J name descriptor expandConfig ms = (doc, none)) :
    ∃ (man : Manifest) (conf : Image),
      J.UnmarshalManifest (payload ms descriptor) = .ok man ∧
      J.UnmarshalImage (payload ms man.Config) = .ok conf ∧
      J.MarshalIndent
          (if !expandConfig then .manifest (manifestJson.start name descriptor conf man)
            else .manifestConfig (manifestConfigJson.start name descriptor conf man)) =
        .ok doc := by
  cases hman : J.UnmarshalManifest (payload ms descriptor) with
  | error err =>
    unfold generateRawJSON at hok
    simp [isIndexType_of_isManifestType _ hroot, hroot, hman] at hok
  | ok man =>
    cases hconf : J.UnmarshalImage (payload ms man.Config) with
    | error err =>
      unfold generateRawJSON at hok
      simp [isIndexType_of_isManifestType _ hroot, hroot, hman, hconf] at hok
    | ok conf =>
      rw [generateRawJSON_manifest J name descriptor expandConfig ms man conf hroot hman
        hconf] at hok
      refine ⟨man, conf, rfl, hconf, ?_⟩
      cases hm : J.MarshalIndent
          (if !expandConfig then .manifest (manifestJson.start name descriptor conf man)
            else .manifestConfig (manifestConfigJson.start name descriptor conf man)) with
      | error err =>
        rw [hm] at hok
        simp at hok
      | ok b =>
        rw [hm] at hok
        simp only [Prod.mk.injEq, and_true] at hok
        rw [hok]

theorem sampleRoundTripDecode_spec (v : RawJSON) (b : String)
    (r : Int × String × List String)
    (h : sampleRoundTripJSON.MarshalIndent v = .ok b) (hr : v.roundTrip = some r) :
    sampleRoundTripDecode b = some r := by
  rw [← hr]
  simp only [sampleRoundTripJSON] at h
  by_cases h1 : v = sampleManifestDoc
  · simp only [h1, if_true, Except.ok.injEq] at h
    subst h
    rw [h1]
    rfl
  · by_cases h2 : v = sampleManifestConfigDoc
    · subst h2
      simp only [h1, if_true, if_false, Except.ok.injEq] at h
      subst h
      rfl
    · simp [h1, h2] at h

/-! ### Results of `generateRawJSON` -/

/-- Every return of `generateRawJSON` is a marshalled document with a nil error,
or the empty string with an error. -/
theorem generateRawJSON_result (J : JSON) (name : String) (descriptor : Descriptor)
    (expandConfig : Bool) (ms : MemoryStore) :
    (∃ (v : RawJSON) (doc : String), J.MarshalIndent v = .ok doc ∧
      generateRawJSON J name descriptor expandConfig ms = (doc, none)) ∨
    (∃ err, generateRawJSON J name descriptor expandConfig ms = ("", some err)) := by
  cases hi : isIndexType descriptor.MediaType with
  | true =>
    cases hdec : J.UnmarshalIndex (payload ms descriptor) with
    | error err =>
      exact Or.inr ⟨err,
        generateRawJSON_index_decode_error J name descriptor expandConfig ms err hi hdec⟩
    | ok idx =>
      rw [generateRawJSON_index J name descriptor expandConfig ms idx hi hdec]
      cases generateRawJSONLoop J ms idx.Manifests (indexJson.start name descriptor idx) with
      | error err => exact Or.inr ⟨err, rfl⟩
      | ok v =>
        cases hm : J.MarshalIndent (.index v) with
        | error err => exact Or.inr ⟨err, by simp [hm]⟩
        | ok b => exact Or.inl ⟨.index v, b, hm, by simp [hm]⟩
  | false =>
    cases hm : isManifestType descriptor.MediaType with
    | false =>
      exact Or.inr ⟨_, generateRawJSON_unknown_root J name descriptor expandConfig ms hi hm⟩
    | true =>
      cases hman : J.UnmarshalManifest (payload ms descriptor) with
      | error err =>
        refine Or.inr ⟨err, ?_⟩
        unfold generateRawJSON
        simp [hi, hm, hman]
      | ok man =>
        cases hconf : J.UnmarshalImage (payload ms man.Config) with
        | error err =>
          refine Or.inr ⟨err, ?_⟩
          unfold generateRawJSON
          simp [hi, hm, hman, hconf]
        | ok conf =>
          rw [generateRawJSON_manifest J name descriptor expandConfig ms man conf hm hman hconf]
          cases hb : J.MarshalIndent
              (if !expandConfig then .manifest (manifestJson.start name descriptor conf man)
                else .manifestConfig (manifestConfigJson.start name descriptor conf man)) with
          | error err => exact Or.inr ⟨err, rfl⟩
          | ok b => exact Or.inl ⟨_, b, hb, rfl⟩

/-! ### Blocks of the entries, in order -/

/-- An iteration that succeeds appends one block, which opens with the type,
digest and length lines of its entry. -/
theorem outputListStep_block (P : Palette) (J : JSON) (cs : MemoryStore) (i : Nat)
    (img : Descriptor) (st st2 : ListState) (h : outputListStep P J cs i img st = .ok st2) :
    ∃ rest : List String, st2.outputStr = st.outputStr ++ (entryHead P i img ++ rest) := by
  cases hm : isManifestType img.MediaType with
  | false =>
    rw [outputListStep_unknown P J cs i img st hm] at h
    cases h
    exact ⟨_, rfl⟩
  | true =>
    cases hdec : J.UnmarshalManifest (payload cs img) with
    | error err =>
      rw [outputListStep_decode_error P J cs i img st err hm hdec] at h
      cases h
    | ok man =>
      cases hatt : isAttestation img with
      | true =>
        rw [outputListStep_attestation P J cs i img st man hm hdec hatt] at h
        cases h
        exact ⟨_, rfl⟩
      | false =>
        cases hp : img.Platform with
        | none =>
          rw [outputListStep_nil_platform P J cs i img st man hm hdec hatt hp] at h
          cases h
        | some platform =>
          rw [outputListStep_platform P J cs i img st man platform hm hdec hatt hp] at h
          cases h
          exact ⟨outputListPlatform P ("[" ++ toString (i + 1) ++ "]") platform ++
            ["[" ++ toString (i + 1) ++ "]" ++ " # Layers: " ++
              P.red (toString man.Layers.length)] ++
            outputListLayers P 0 man.Layers ++ [""], by simp [List.append_assoc]⟩

/-- When the loop finishes, the builder has grown by one block per entry, in the
order of the entries, the block of the entry at position `k` opening with the
lines numbered `i + k + 1`. -/
theorem outputListLoop_blocks (P : Palette) (J : JSON) (cs : MemoryStore)
    (entries : List Descriptor) :
    ∀ (i : Nat) (st st2 : ListState), outputListLoop P J cs i entries st = .ok st2 →
      ∃ blocks : List (List String),
        blocks.length = entries.length ∧
        st2.outputStr = st.outputStr ++ blocks.flatten ∧
        ∀ (k : Nat) (img : Descriptor), entries[k]? = some img →
          ∃ rest, blocks[k]? = some (entryHead P (i + k) img ++ rest) := by
  induction entries with
  | nil =>
    intro i st st2 h
    simp only [outputListLoop, Except.ok.injEq] at h
    subst h
    exact ⟨[], rfl, by simp, by simp⟩
  | cons e tail ih =>
    intro i st st2 h
    simp only [outputListLoop] at h
    cases hstep : outputListStep P J cs i e st with
    | error t => simp [hstep] at h
    | ok st1 =>
      simp only [hstep] at h
      obtain ⟨rest0, hrest0⟩ := outputListStep_block P J cs i e st st1 hstep
      obtain ⟨blocks, hlen, hout, hget⟩ := ih (i + 1) st1 st2 h
      refine ⟨(entryHead P i e ++ rest0) :: blocks, by simp [hlen], ?_, ?_⟩
      · rw [hout, hrest0]
        simp [List.append_assoc]
      · intro k img hk
        cases k with
        | zero =>
          simp only [List.getElem?_cons_zero, Option.some.injEq] at hk
          subst hk
          exact ⟨rest0, by simp⟩
        | succ n =>
          simp only [List.getElem?_cons_succ] at hk
          obtain ⟨rest, hr⟩ := hget n img hk
          refine ⟨rest, ?_⟩
          have hidx : i + (n + 1) = i + 1 + n := by omega
          simp only [List.getElem?_cons_succ, hidx]
          exact hr

/-! ## Properties -/

/-- Claim C1, as the code has it: when `outputList` completes, its summary line
carries an image label and an attestation label, each chosen from its own count
alone; the image label is the singular "image" exactly when the image count is at
most 1 and the plural "images" exactly when it is 2 or more, and likewise
"attestation" / "attestations" for the attestation count. -/
theorem outputList_summary_labels (P : Palette) (J : JSON) (name : String) (cs : MemoryStore)
    (descriptor : Descriptor) (index : Index)
    (h : (outputList P J name cs descriptor index).termination = .returned none) :
    ∃ (imageCount : Int) (attestations : Nat) (imageLabel attestLabel : String),
      (outputList P J name cs descriptor index).stdout[2]? =
        some (" * Contains " ++ P.red (toString index.Manifests.length) ++
          " manifest references (" ++ P.red (toString imageCount) ++ " " ++ imageLabel ++
          ", " ++ P.red (toString attestations) ++ " " ++ attestLabel ++ "):") ∧
      imageCount = (index.Manifests.length : Int) - (attestationCount index.Manifests : Int) ∧
      attestations = attestationCount index.Manifests ∧
      (imageLabel = "image" ↔ imageCount ≤ 1) ∧
      (imageLabel = "images" ↔ 2 ≤ imageCount) ∧
      (attestLabel = "attestation" ↔ attestations ≤ 1) ∧
      (attestLabel = "attestations" ↔ 2 ≤ attestations) := by
  obtain ⟨st, hst⟩ := outputList_returned P J name cs descriptor index h
  refine ⟨(index.Manifests.length : Int) - (attestationCount index.Manifests : Int),
    attestationCount index.Manifests,
    imageStr ((index.Manifests.length : Int) - (attestationCount index.Manifests : Int)),
    attestStr (attestationCount index.Manifests), ?_, rfl, rfl, ?_, ?_, ?_, ?_⟩
  · rw [outputList_of_loop_ok P J name cs descriptor index st hst]
    simp [listHeader, summaryLine]
  · unfold imageStr
    split_ifs with hc
    · constructor
      · intro hh; exact absurd hh (by decide)
      · intro hh; omega
    · constructor
      · intro _; omega
      · intro _; rfl
  · unfold imageStr
    split_ifs with hc
    · constructor
      · intro _; omega
      · intro _; rfl
    · constructor
      · intro hh; exact absurd hh (by decide)
      · intro hh; omega
  · unfold attestStr
    split_ifs with hc
    · constructor
      · intro hh; exact absurd hh (by decide)
      · intro hh; omega
    · constructor
      · intro _; omega
      · intro _; rfl
  · unfold attestStr
    split_ifs with hc
    · constructor
      · intro _; omega
      · intro _; rfl
    · constructor
      · intro hh; exact absurd hh (by decide)
      · intro hh; omega

/-- Witness for `outputList_summary_labels`: the sample index is rendered to the end. -/
theorem outputList_summary_labels_witness :
    (outputList Palette.plain sampleJSON "example.com/app:v1" sampleStore sampleRoot
        sampleIndex).termination = .returned none ∧
    ∃ (imageCount : Int) (attestations : Nat) (imageLabel attestLabel : String),
      (outputList Palette.plain sampleJSON "example.com/app:v1" sampleStore sampleRoot
          sampleIndex).stdout[2]? =
        some (" * Contains " ++ Palette.plain.red (toString sampleIndex.Manifests.length) ++
          " manifest references (" ++ Palette.plain.red (toString imageCount) ++ " " ++
          imageLabel ++ ", " ++ Palette.plain.red (toString attestations) ++ " " ++
          attestLabel ++ "):") ∧
      imageCount =
        (sampleIndex.Manifests.length : Int) - (attestationCount sampleIndex.Manifests : Int) ∧
      attestations = attestationCount sampleIndex.Manifests ∧
      (imageLabel = "image" ↔ imageCount ≤ 1) ∧
      (imageLabel = "images" ↔ 2 ≤ imageCount) ∧
      (attestLabel = "attestation" ↔ attestations ≤ 1) ∧
      (attestLabel = "attestations" ↔ 2 ≤ attestations) :=
  ⟨by decide, outputList_summary_labels Palette.plain sampleJSON "example.com/app:v1"
    sampleStore sampleRoot sampleIndex (by decide)⟩

/-- Claim C1 fails as stated: on an index without entries both counts are 0, not 1,
and the summary line still carries the singular labels "image" and "attestation". -/
theorem outputList_zero_counts_singular :
    (outputList Palette.plain sampleJSON "example.com/app:v1" sampleStore sampleRoot
        ⟨2, MediaTypeImageIndex, [], []⟩).stdout[2]? =
      some " * Contains 0 manifest references (0 image, 0 attestation):" ∧
    ¬ (imageStr 0 = "image" ↔ (0 : Int) = 1) ∧
    ¬ (attestStr 0 = "attestation" ↔ (0 : Nat) = 1) := by
  refine ⟨by decide, ?_, ?_⟩
  · intro h; exact absurd (h.mp (by decide)) (by decide)
  · intro h; exact absurd (h.mp (by decide)) (by decide)

/-- Claim C2 at an input where the code departs from it: for a root descriptor of
an unrecognized media type, raw mode ends in `logrus.Fatal` (exit status 1) with
the error of `generateRawJSON`, while human mode only logs the unknown type,
prints nothing and returns nil, so the process exits with status 0. -/
theorem inspect_unknown_root_exit_status :
    (generateRawJSON sampleJSON "example.com/app:v1" sampleUnknown false sampleStore) =
      ("", some "unknown descriptor type: application/vnd.example.unknown") ∧
    (inspectAction Palette.plain sampleJSON ⟨"example.com/app:v1", true, false⟩
        (sampleEnv sampleUnknown)).termination =
      .fatal "unknown descriptor type: application/vnd.example.unknown" ∧
    (inspectAction Palette.plain sampleJSON ⟨"example.com/app:v1", true, false⟩
        (sampleEnv sampleUnknown)).termination.exitCode = 1 ∧
    (inspectAction Palette.plain sampleJSON ⟨"example.com/app:v1", false, false⟩
        (sampleEnv sampleUnknown)) =
      ⟨[.ParseName, .NewMemoryStore, .CreateRegistryHost, .FetchDescriptor],
        ["Unknown descriptor type: application/vnd.example.unknown"], [], .returned none⟩ ∧
    (inspectAction Palette.plain sampleJSON ⟨"example.com/app:v1", false, false⟩
        (sampleEnv sampleUnknown)).termination.exitCode = 0 := by
  refine ⟨by decide, by decide, by decide, by decide, by decide⟩

/-- Claim C3 fails as stated: in human mode the store lookup for an index entry of
unrecognized media type finds nothing (the entry is absent from the store) and
the result is ignored; `outputList` writes the note for the entry and returns
normally. -/
theorem outputList_ignores_absent_unknown_entry :
    sampleStore.Get sampleUnknown = none ∧
    outputList Palette.plain sampleJSON "example.com/app:v1" sampleStore sampleRoot
        ⟨2, MediaTypeImageIndex, [sampleUnknown], []⟩ =
      ⟨["Name:   example.com/app:v1 (Type: application/vnd.oci.image.index.v1+json)",
        "Digest: sha256:root",
        " * Contains 1 manifest references (1 image, 0 attestation):",
        "[1]     Type: application/vnd.example.unknown",
        "[1]   Digest: sha256:zzz",
        "[1]   Length: 4",
        "Unknown media type for further display: application/vnd.example.unknown"],
       .returned none⟩ := by
  refine ⟨by decide, by decide⟩

/-- Claim C3, as the code has it: when a descriptor whose payload the pipeline
decodes (a root of recognized media type, an entry of manifest type of the root
index, the config of the root manifest) is absent from the store, and
`json.Unmarshal` rejects the empty payload, then raw generation returns an error
with the empty string and human rendering is terminated by `logrus.Fatal` or by
a panic, for every store, root descriptor and expand-config flag. -/
theorem absent_decoded_descriptor_fails (P : Palette) (J : JSON) (name : String)
    (root : Descriptor) (expandConfig : Bool) (ms : MemoryStore)
    (hnil : rejectsEmpty J) (habs : absentDecoded J ms root) :
    (∃ err, generateRawJSON J name root expandConfig ms = ("", some err)) ∧
    (∃ msg, (inspectHuman P J name ms root).2.termination = .fatal msg ∨
      (inspectHuman P J name ms root).2.termination = .panic msg) := by
  obtain ⟨⟨ei, hei⟩, ⟨em, hem⟩, ⟨ec, hec⟩⟩ := hnil
  rcases habs with ⟨hty, hget⟩ | ⟨hidx, idx, hdec, m, hm, hmt, hget⟩ |
    ⟨hnidx, hman, man, hdec, hget⟩
  · have hp := payload_of_absent ms root hget
    cases hidx : isIndexType root.MediaType with
    | true =>
      constructor
      · exact ⟨ei, generateRawJSON_index_decode_error J name root expandConfig ms ei hidx
          (by rw [hp]; exact hei)⟩
      · refine ⟨ei, Or.inl ?_⟩
        unfold inspectHuman
        simp [hidx, hp, hei]
    | false =>
      have hman : isManifestType root.MediaType = true := by
        rcases hty with h | h
        · rw [hidx] at h; cases h
        · exact h
      constructor
      · refine ⟨em, ?_⟩
        unfold generateRawJSON
        simp [hidx, hman, hp, hem]
      · refine ⟨em, Or.inl ?_⟩
        unfold inspectHuman
        simp [hidx, hman, hp, hem]
  · have hp := payload_of_absent ms m hget
    have hbad : ∃ err, J.UnmarshalManifest (payload ms m) = .error err :=
      ⟨em, by rw [hp]; exact hem⟩
    constructor
    · obtain ⟨err, herr⟩ := generateRawJSONLoop_bad J ms idx.Manifests
        (indexJson.start name root idx) m hm (Or.inr hbad)
      refine ⟨err, ?_⟩
      rw [generateRawJSON_index J name root expandConfig ms idx hidx hdec, herr]
    · obtain ⟨t, ht⟩ := outputListLoop_decode_error P J ms idx.Manifests 0 ⟨[], 0⟩ m hm hmt hbad
      have hh : inspectHuman P J name ms root = ([], outputList P J name ms root idx) := by
        unfold inspectHuman
        simp [hidx, hdec]
      rw [hh]
      exact outputList_stopped P J name ms root idx t ht
  · have hp := payload_of_absent ms man.Config hget
    constructor
    · refine ⟨ec, ?_⟩
      unfold generateRawJSON
      simp [hnidx, hman, hdec, hp, hec]
    · refine ⟨ec, Or.inl ?_⟩
      unfold inspectHuman
      simp [hnidx, hman, hdec, hp, hec]

/-- Witness for `absent_decoded_descriptor_fails`: the sample index is stored but
its entries are not. -/
theorem absent_decoded_descriptor_fails_witness :
    rejectsEmpty sampleJSON ∧ absentDecoded sampleJSON sampleRootOnlyStore sampleRoot ∧
    (∃ err, generateRawJSON sampleJSON "example.com/app:v1" sampleRoot false
      sampleRootOnlyStore = ("", some err)) ∧
    (∃ msg, (inspectHuman Palette.plain sampleJSON "example.com/app:v1" sampleRootOnlyStore
        sampleRoot).2.termination = .fatal msg ∨
      (inspectHuman Palette.plain sampleJSON "example.com/app:v1" sampleRootOnlyStore
        sampleRoot).2.termination = .panic msg) :=
  have hnil : rejectsEmpty sampleJSON := ⟨⟨_, rfl⟩, ⟨_, rfl⟩, ⟨_, rfl⟩⟩
  have habs : absentDecoded sampleJSON sampleRootOnlyStore sampleRoot :=
    Or.inr (Or.inl ⟨by decide, sampleIndex, rfl, sampleEntry, by decide, by decide,
      by decide⟩)
  ⟨hnil, habs, absent_decoded_descriptor_fails Palette.plain sampleJSON "example.com/app:v1"
    sampleRoot false sampleRootOnlyStore hnil habs⟩

/-- Claim C4: for a root descriptor of index-like media type and every store
(`json.MarshalIndent` succeeding on every index document), `generateRawJSON`
returns an error if and only if the root payload fails to decode as an index, or
some entry of the decoded index has a media type other than the two manifest
types or a stored payload that fails to decode as a manifest; otherwise it
returns a document, the marshalled `indexJson`, with no error. -/
theorem generateRawJSON_index_error_iff (J : JSON) (name : String) (root : Descriptor)
    (expandConfig : Bool) (ms : MemoryStore)
    (hroot : isIndexType root.MediaType = true)
    (hmarshal : ∀ v : indexJson, ∃ b, J.MarshalIndent (.index v) = .ok b) :
    ((generateRawJSON J name root expandConfig ms).2 ≠ none ↔
      ((∃ err, J.UnmarshalIndex (payload ms root) = .error err) ∨
        ∃ idx, J.UnmarshalIndex (payload ms root) = .ok idx ∧
          ∃ m, m ∈ idx.Manifests ∧
            (isManifestType m.MediaType = false ∨
              ∃ err, J.UnmarshalManifest (payload ms m) = .error err))) ∧
    ((generateRawJSON J name root expandConfig ms).2 = none →
      ∃ (v : indexJson) (b : String), J.MarshalIndent (.index v) = .ok b ∧
        generateRawJSON J name root expandConfig ms = (b, none)) := by
  cases hdec : J.UnmarshalIndex (payload ms root) with
  | error err =>
    rw [generateRawJSON_index_decode_error J name root expandConfig ms err hroot hdec]
    exact ⟨⟨fun _ => Or.inl ⟨err, rfl⟩, fun _ => by simp⟩, fun h => by simp at h⟩
  | ok idx =>
    rw [generateRawJSON_index J name root expandConfig ms idx hroot hdec]
    cases hloop : generateRawJSONLoop J ms idx.Manifests (indexJson.start name root idx) with
    | error err =>
      obtain ⟨m, hm, hbad⟩ := generateRawJSONLoop_error J ms idx.Manifests _ err hloop
      refine ⟨⟨fun _ => Or.inr ⟨idx, rfl, m, hm, hbad⟩, fun _ => by simp⟩, fun h => by simp at h⟩
    | ok v =>
      obtain ⟨b, hb⟩ := hmarshal v
      simp only [hb]
      refine ⟨⟨fun h => by simp at h, ?_⟩, fun _ => ⟨v, b, hb, rfl⟩⟩
      rintro (⟨err, herr⟩ | ⟨idx2, hidx2, m, hm, hbad⟩)
      · cases herr
      · cases hidx2
        obtain ⟨err, herr⟩ := generateRawJSONLoop_bad J ms idx.Manifests
          (indexJson.start name root idx) m hm hbad
        rw [hloop] at herr
        cases herr

/-- Witness for `generateRawJSON_index_error_iff`: the sample index, whose three
entries decode, yields a document. -/
theorem generateRawJSON_index_error_iff_witness :
    isIndexType sampleRoot.MediaType = true ∧
    (∀ v : indexJson, ∃ b, sampleJSON.MarshalIndent (.index v) = .ok b) ∧
    generateRawJSON sampleJSON "example.com/app:v1" sampleRoot false sampleStore =
      ("index example.com/app:v1 3", none) ∧
    ((generateRawJSON sampleJSON "example.com/app:v1" sampleRoot false sampleStore).2 ≠ none ↔
      ((∃ err, sampleJSON.UnmarshalIndex (payload sampleStore sampleRoot) = .error err) ∨
        ∃ idx, sampleJSON.UnmarshalIndex (payload sampleStore sampleRoot) = .ok idx ∧
          ∃ m, m ∈ idx.Manifests ∧
            (isManifestType m.MediaType = false ∨
              ∃ err, sampleJSON.UnmarshalManifest (payload sampleStore m) = .error err))) :=
  ⟨by decide, fun v => ⟨_, rfl⟩, by decide,
    (generateRawJSON_index_error_iff sampleJSON "example.com/app:v1" sampleRoot false
      sampleStore (by decide) (fun v => ⟨_, rfl⟩)).1⟩

/-- Claim C5: when `generateRawJSON` succeeds on an index, the document is the
marshalled `indexJson` whose `manifests` sequence has exactly as many elements as
the index has entries, the i-th element being the manifest decoded from the
store payload of the i-th entry, for every i and whatever the annotations of the
entry. -/
theorem generateRawJSON_manifests_in_order (J : JSON) (name : String) (root : Descriptor)
    (expandConfig : Bool) (ms : MemoryStore) (doc : String)
    (hroot : isIndexType root.MediaType = true)
    (hok : generateRawJSON J name root expandConfig ms = (doc, none)) :
    ∃ (idx : Index) (v : indexJson),
      J.UnmarshalIndex (payload ms root) = .ok idx ∧
      J.MarshalIndent (.index v) = .ok doc ∧
      v.Manifests.length = idx.Manifests.length ∧
      ∀ (i : Nat) (m : Descriptor), idx.Manifests[i]? = some m →
        ∃ image, v.Manifests[i]? = some image ∧
          J.UnmarshalManifest (payload ms m) = .ok image := by
  cases hdec : J.UnmarshalIndex (payload ms root) with
  | error err =>
    rw [generateRawJSON_index_decode_error J name root expandConfig ms err hroot hdec] at hok
    simp at hok
  | ok idx =>
    rw [generateRawJSON_index J name root expandConfig ms idx hroot hdec] at hok
    cases hloop : generateRawJSONLoop J ms idx.Manifests (indexJson.start name root idx) with
    | error err => simp [hloop] at hok
    | ok v =>
      simp only [hloop] at hok
      cases hb : J.MarshalIndent (.index v) with
      | error err => simp [hb] at hok
      | ok b =>
        simp only [hb, Prod.mk.injEq, and_true] at hok
        subst hok
        obtain ⟨images, hv, hlen, hget⟩ := generateRawJSONLoop_ok J ms idx.Manifests _ v hloop
        have hvm : v.Manifests = images := by rw [hv]; simp [indexJson.start]
        refine ⟨idx, v, rfl, hb, by rw [hvm, hlen], ?_⟩
        intro i m hi
        obtain ⟨image, h1, _, h3⟩ := hget i m hi
        exact ⟨image, by rw [hvm]; exact h1, h3⟩

/-- Witness for `generateRawJSON_manifests_in_order`: the sample index, whose third
entry is an attestation. -/
theorem generateRawJSON_manifests_in_order_witness :
    isIndexType sampleRoot.MediaType = true ∧
    generateRawJSON sampleJSON "example.com/app:v1" sampleRoot false sampleStore =
      ("index example.com/app:v1 3", none) ∧
    ∃ (idx : Index) (v : indexJson),
      sampleJSON.UnmarshalIndex (payload sampleStore sampleRoot) = .ok idx ∧
      sampleJSON.MarshalIndent (.index v) = .ok "index example.com/app:v1 3" ∧
      v.Manifests.length = idx.Manifests.length ∧
      ∀ (i : Nat) (m : Descriptor), idx.Manifests[i]? = some m →
        ∃ image, v.Manifests[i]? = some image ∧
          sampleJSON.UnmarshalManifest (payload sampleStore m) = .ok image :=
  ⟨by decide, by decide,
    generateRawJSON_manifests_in_order sampleJSON "example.com/app:v1" sampleRoot false
      sampleStore "index example.com/app:v1 3" (by decide) (by decide)⟩

/-- Counts of an index whose entries all have a manifest media type, a decodable
payload and no attestation reference type: the `manifests` array of the raw
document has as many elements as the index has entries; whenever `outputList`
prints its summary line, that line reports this same number as the image count
and 0 as the attestation count; and `outputList` does print it when every entry
carries its platform. -/
theorem raw_count_eq_image_count (P : Palette) (J : JSON) (name : String) (root : Descriptor)
    (expandConfig : Bool) (ms : MemoryStore) (idx : Index)
    (hroot : isIndexType root.MediaType = true)
    (hdec : J.UnmarshalIndex (payload ms root) = .ok idx)
    (hall : ∀ m, m ∈ idx.Manifests → isManifestType m.MediaType = true ∧
      (∃ man, J.UnmarshalManifest (payload ms m) = .ok man) ∧ isAttestation m = false) :
    ∃ v : indexJson,
      v.Manifests.length = idx.Manifests.length ∧
      generateRawJSON J name root expandConfig ms =
        (match J.MarshalIndent (.index v) with
          | .error err => ("", some err)
          | .ok b => (b, none)) ∧
      ((outputList P J name ms root idx).termination = .returned none →
        (outputList P J name ms root idx).stdout[2]? =
          some (" * Contains " ++ P.red (toString idx.Manifests.length) ++
            " manifest references (" ++ P.red (toString (idx.Manifests.length : Int)) ++ " " ++
            imageStr (idx.Manifests.length : Int) ++ ", " ++ P.red (toString 0) ++ " " ++
            attestStr 0 ++ "):")) ∧
      ((∀ m, m ∈ idx.Manifests → ∃ platform, m.Platform = some platform) →
        (outputList P J name ms root idx).termination = .returned none) := by
  have hgood : ∀ m, m ∈ idx.Manifests → ¬ badEntry J ms m := by
    intro m hm hbad
    obtain ⟨h1, ⟨man, h2⟩, _⟩ := hall m hm
    rcases hbad with hb | ⟨err, hb⟩
    · rw [h1] at hb; cases hb
    · rw [h2] at hb; cases hb
  obtain ⟨v, hv⟩ := generateRawJSONLoop_total J ms idx.Manifests
    (indexJson.start name root idx) hgood
  obtain ⟨images, himg, hlen, _⟩ := generateRawJSONLoop_ok J ms idx.Manifests _ v hv
  have hvm : v.Manifests = images := by rw [himg]; simp [indexJson.start]
  have hzero : attestationCount idx.Manifests = 0 :=
    attestationCount_eq_zero idx.Manifests (fun m hm => (hall m hm).2.2)
  refine ⟨v, by rw [hvm, hlen], ?_, ?_, ?_⟩
  · rw [generateRawJSON_index J name root expandConfig ms idx hroot hdec, hv]
  · intro hret
    obtain ⟨st, hst⟩ := outputList_returned P J name ms root idx hret
    rw [outputList_of_loop_ok P J name ms root idx st hst, hzero]
    simp [listHeader, summaryLine]
  · intro hplat
    obtain ⟨st, hst⟩ := outputListLoop_total P J ms idx.Manifests 0 ⟨[], 0⟩
      (fun m hm => ⟨(hall m hm).1, (hall m hm).2.1, Or.inr (hplat m hm)⟩)
    rw [outputList_of_loop_ok P J name ms root idx st hst]

/-- An instance of `raw_count_eq_image_count`: an index of two platform manifests. -/
theorem raw_count_eq_image_count_witness :
    isIndexType sampleRoot.MediaType = true ∧
    samplePlatformJSON.UnmarshalIndex (payload sampleStore sampleRoot) =
      .ok ⟨2, MediaTypeImageIndex, [sampleEntry, sampleEntry], []⟩ ∧
    generateRawJSON samplePlatformJSON "example.com/app:v1" sampleRoot false sampleStore =
      ("index example.com/app:v1 2", none) ∧
    (outputList Palette.plain samplePlatformJSON "example.com/app:v1" sampleStore sampleRoot
        ⟨2, MediaTypeImageIndex, [sampleEntry, sampleEntry], []⟩).termination =
      .returned none ∧
    (outputList Palette.plain samplePlatformJSON "example.com/app:v1" sampleStore sampleRoot
        ⟨2, MediaTypeImageIndex, [sampleEntry, sampleEntry], []⟩).stdout[2]? =
      some " * Contains 2 manifest references (2 images, 0 attestation):" ∧
    ∃ v : indexJson,
      v.Manifests.length = 2 ∧
      generateRawJSON samplePlatformJSON "example.com/app:v1" sampleRoot false sampleStore =
        (match samplePlatformJSON.MarshalIndent (.index v) with
          | .error err => ("", some err)
          | .ok b => (b, none)) :=
  have h := raw_count_eq_image_count Palette.plain samplePlatformJSON "example.com/app:v1"
    sampleRoot false sampleStore ⟨2, MediaTypeImageIndex, [sampleEntry, sampleEntry], []⟩
    (by decide) rfl
    (by
      intro m hm
      have hmm : m = sampleEntry := by simpa using hm
      subst hmm
      exact ⟨by decide, ⟨sampleManifest, rfl⟩, by decide⟩)
  ⟨by decide, rfl, by decide, by decide, by decide,
    h.elim (fun v hv => ⟨v, hv.1, hv.2.1⟩)⟩

/-- Claim C6 at an input where the code departs from it: the only entry of the
index has a manifest media type, a decodable payload and no attestation
reference type, so the index is one of platform manifests and its raw document
has one manifest; the entry has no platform, and human mode panics on the nil
platform after its two header lines: no summary line is printed and no image
count is reported. -/
theorem no_image_count_without_platform :
    sampleIndexNoPlatform.Manifests = [sampleEntryNoPlatform] ∧
    isManifestType sampleEntryNoPlatform.MediaType = true ∧
    (sampleJSONExtra sampleFieldMarshal).UnmarshalManifest
        (payload sampleStoreExtra sampleEntryNoPlatform) = .ok sampleManifest ∧
    sampleEntryNoPlatform.Annotations.lookup "vnd.docker.reference.type" = none ∧
    generateRawJSON (sampleJSONExtra sampleFieldMarshal) "example.com/app:v1" sampleRoot false
        sampleStoreExtra = ("index example.com/app:v1 manifests=1", none) ∧
    (∀ marshal : RawJSON → Except String String,
      generateRawJSON (sampleJSONExtra marshal) "example.com/app:v1" sampleRoot false
          sampleStoreExtra =
        match marshal (.index
            { Name := "example.com/app:v1"
              Digest := "sha256:root"
              SchemaVersion := 2
              MediaType := MediaTypeImageIndex
              Manifests := [sampleManifest]
              Annotations := [] }) with
        | .error err => ("", some err)
        | .ok b => (b, none)) ∧
    inspectHuman Palette.plain (sampleJSONExtra sampleFieldMarshal) "example.com/app:v1"
        sampleStoreExtra sampleRoot =
      ([], ⟨["Name:   example.com/app:v1 (Type: application/vnd.oci.image.index.v1+json)",
             "Digest: sha256:root"],
            .panic "invalid memory address or nil pointer dereference"⟩) := by
  refine ⟨rfl, by decide, rfl, by decide, by decide, fun marshal => rfl, by decide⟩

/-- Claim C7 fails as stated: an entry annotated as an attestation for `sha256:bbb`
whose payload decodes, but whose media type is not a manifest type, gets no
pointer line; its block ends with the note on the unknown media type. -/
theorem outputList_attestation_of_unknown_type :
    sampleUntypedAttestation.Annotations.lookup "vnd.docker.reference.type" =
      some "attestation-manifest" ∧
    sampleUntypedAttestation.Annotations.lookup "vnd.docker.reference.digest" =
      some "sha256:bbb" ∧
    sampleJSON.UnmarshalManifest (payload sampleStore sampleUntypedAttestation) =
      .ok sampleManifest ∧
    outputList Palette.plain sampleJSON "example.com/app:v1" sampleStore sampleRoot
        ⟨2, MediaTypeImageIndex, [sampleUntypedAttestation], []⟩ =
      ⟨["Name:   example.com/app:v1 (Type: application/vnd.oci.image.index.v1+json)",
        "Digest: sha256:root",
        " * Contains 1 manifest references (0 image, 1 attestation):",
        "[1]     Type: application/vnd.in-toto+json" ++
          " (vnd.docker.reference.type=attestation-manifest)",
        "[1]   Digest: sha256:m1",
        "[1]   Length: 10",
        "Unknown media type for further display: application/vnd.in-toto+json"],
       .returned none⟩ := by
  refine ⟨by decide, by decide, rfl, by decide⟩

/-- Claim C7, as the code has it: for an index entry of manifest media type whose
annotations carry `vnd.docker.reference.type` = `attestation-manifest` and
`vnd.docker.reference.digest` = D and whose payload decodes, the iteration of
`outputList` for that entry, reached after the entries before it, adds to the
builder its type, digest and length lines, then the one pointer line naming D
and an empty line, with no platform, layer-count or layer lines, counts one
attestation, and goes on with the entries after it. -/
theorem outputList_attestation_block (P : Palette) (J : JSON) (cs : MemoryStore)
    (pre post : List Descriptor) (img : Descriptor) (D : String) (man : Manifest)
    (st : ListState)
    (hm : isManifestType img.MediaType = true)
    (htype : img.Annotations.lookup "vnd.docker.reference.type" = some "attestation-manifest")
    (hdigest : img.Annotations.lookup "vnd.docker.reference.digest" = some D)
    (hdec : J.UnmarshalManifest (payload cs img) = .ok man)
    (hpre : outputListLoop P J cs 0 pre ⟨[], 0⟩ = .ok st) :
    outputListLoop P J cs 0 (pre ++ img :: post) ⟨[], 0⟩ =
      outputListLoop P J cs (pre.length + 1) post
        ⟨st.outputStr ++
          ["[" ++ toString (pre.length + 1) ++ "]" ++ "     Type: " ++ P.green img.MediaType ++
              P.green " (vnd.docker.reference.type=attestation-manifest)",
           "[" ++ toString (pre.length + 1) ++ "]" ++ "   Digest: " ++ P.yellow img.Digest,
           "[" ++ toString (pre.length + 1) ++ "]" ++ "   Length: " ++
              P.blue (toString img.Size),
           "[" ++ toString (pre.length + 1) ++ "]" ++ "       >>> Attestation for digest: " ++
              P.yellow D,
           ""],
         st.attestations + 1⟩ := by
  have hatt : isAttestation img = true := by
    unfold isAttestation
    rw [htype]
    decide
  rw [outputListLoop_append, hpre]
  simp only [outputListLoop, Nat.zero_add]
  rw [outputListStep_attestation P J cs pre.length img st man hm hdec hatt]
  simp [entryHead, hatt, hdigest]

/-- Witness for `outputList_attestation_block`: the attestation entry of the sample
index, after its two platform entries. -/
theorem outputList_attestation_block_witness :
    (outputList Palette.plain sampleJSON "example.com/app:v1" sampleStore sampleRoot
        sampleIndex).stdout.drop 23 =
      ["[3]     Type: application/vnd.oci.image.manifest.v1+json" ++
          " (vnd.docker.reference.type=attestation-manifest)",
        "[3]   Digest: sha256:m1",
        "[3]   Length: 10",
        "[3]       >>> Attestation for digest: sha256:bbb",
        ""] ∧
    ∃ st, outputListLoop Palette.plain sampleJSON sampleStore 0 [sampleEntry, sampleEntry]
        ⟨[], 0⟩ = .ok st ∧
      outputListLoop Palette.plain sampleJSON sampleStore 0
          ([sampleEntry, sampleEntry] ++ sampleAttestation :: []) ⟨[], 0⟩ =
        outputListLoop Palette.plain sampleJSON sampleStore
          ([sampleEntry, sampleEntry].length + 1) []
          ⟨st.outputStr ++
            ["[" ++ toString ([sampleEntry, sampleEntry].length + 1) ++ "]" ++ "     Type: " ++
                Palette.plain.green sampleAttestation.MediaType ++
                Palette.plain.green " (vnd.docker.reference.type=attestation-manifest)",
             "[" ++ toString ([sampleEntry, sampleEntry].length + 1) ++ "]" ++ "   Digest: " ++
                Palette.plain.yellow sampleAttestation.Digest,
             "[" ++ toString ([sampleEntry, sampleEntry].length + 1) ++ "]" ++ "   Length: " ++
                Palette.plain.blue (toString sampleAttestation.Size),
             "[" ++ toString ([sampleEntry, sampleEntry].length + 1) ++ "]" ++
                "       >>> Attestation for digest: " ++ Palette.plain.yellow "sha256:bbb",
             ""],
           st.attestations + 1⟩ :=
  ⟨by decide, _, rfl,
    outputList_attestation_block Palette.plain sampleJSON sampleStore [sampleEntry, sampleEntry]
      [] sampleAttestation "sha256:bbb" sampleManifest _ (by decide) (by decide) (by decide)
      rfl rfl⟩

/-- Claim C8: when `outputList` completes on an index with N entries, its summary
line reports N as the total, as the attestation count the number of entries whose
annotation `vnd.docker.reference.type` is present and equal to
`attestation-manifest`, and as the image count N minus that number; with colours
off, 3 entries of which one is such an attestation give
" * Contains 3 manifest references (2 images, 1 attestation):". -/
theorem outputList_summary_counts (P : Palette) (J : JSON) (name : String) (cs : MemoryStore)
    (root : Descriptor) (index : Index)
    (h : (outputList P J name cs root index).termination = .returned none) :
    (outputList P J name cs root index).stdout[2]? =
      some (" * Contains " ++ P.red (toString index.Manifests.length) ++
        " manifest references (" ++
        P.red (toString
          ((index.Manifests.length : Int) - (attestationCount index.Manifests : Int))) ++ " " ++
        imageStr ((index.Manifests.length : Int) - (attestationCount index.Manifests : Int)) ++
        ", " ++ P.red (toString (attestationCount index.Manifests)) ++ " " ++
        attestStr (attestationCount index.Manifests) ++ "):") ∧
    attestationCount index.Manifests =
      (index.Manifests.filter (fun img =>
        img.Annotations.lookup "vnd.docker.reference.type" == some "attestation-manifest")).length ∧
    (index.Manifests.length = 3 → attestationCount index.Manifests = 1 →
      (outputList Palette.plain J name cs root index).stdout[2]? =
        some " * Contains 3 manifest references (2 images, 1 attestation):") := by
  have hff : firstFault J cs index.Manifests = none := by
    rw [outputList_termination] at h
    cases hf : firstFault J cs index.Manifests with
    | none => rfl
    | some t =>
      simp only [hf] at h
      obtain ⟨msg, hmsg | hmsg⟩ := outputListLoop_error P J cs index.Manifests 0 ⟨[], 0⟩ t
        (by have := outputListLoop_fault P J cs index.Manifests 0 ⟨[], 0⟩
            simpa [hf] using this) <;> simp_all
  refine ⟨?_, rfl, ?_⟩
  · have hl := outputListLoop_fault P J cs index.Manifests 0 ⟨[], 0⟩
    simp only [hff] at hl
    obtain ⟨st, hst⟩ := hl
    rw [outputList_of_loop_ok P J name cs root index st hst]
    simp [listHeader, summaryLine]
  · intro h3 h1
    have hl := outputListLoop_fault Palette.plain J cs index.Manifests 0 ⟨[], 0⟩
    simp only [hff] at hl
    obtain ⟨st, hst⟩ := hl
    rw [outputList_of_loop_ok Palette.plain J name cs root index st hst, h3, h1]
    have hs : summaryLine Palette.plain 3 (((3 : Nat) : Int) - ((1 : Nat) : Int)) 1 =
        " * Contains 3 manifest references (2 images, 1 attestation):" := by decide
    rw [hs]
    simp [listHeader]

/-- Witness for `outputList_summary_counts`: the sample index, with two platform
entries and one attestation. -/
theorem outputList_summary_counts_witness :
    (outputList Palette.plain sampleJSON "example.com/app:v1" sampleStore sampleRoot
        sampleIndex).termination = .returned none ∧
    sampleIndex.Manifests.length = 3 ∧ attestationCount sampleIndex.Manifests = 1 ∧
    (outputList Palette.plain sampleJSON "example.com/app:v1" sampleStore sampleRoot
        sampleIndex).stdout[2]? =
      some " * Contains 3 manifest references (2 images, 1 attestation):" :=
  ⟨by decide, by decide, by decide,
    (outputList_summary_counts Palette.plain sampleJSON "example.com/app:v1" sampleStore
      sampleRoot sampleIndex (by decide)).2.2 (by decide) (by decide)⟩

/-- Claim C9 fails as stated: for an entry of unrecognized media type `outputList`
still writes the type, digest and length lines of the entry before the note on
the unknown media type. -/
theorem outputList_unknown_entry_block_not_skipped :
    isManifestType sampleUnknown.MediaType = false ∧
    outputList Palette.plain sampleJSON "example.com/app:v1" sampleStore sampleRoot
        ⟨2, MediaTypeImageIndex, [sampleUnknown, sampleEntry], []⟩ =
      ⟨["Name:   example.com/app:v1 (Type: application/vnd.oci.image.index.v1+json)",
        "Digest: sha256:root",
        " * Contains 2 manifest references (2 images, 0 attestation):",
        "[1]     Type: application/vnd.example.unknown",
        "[1]   Digest: sha256:zzz",
        "[1]   Length: 4",
        "Unknown media type for further display: application/vnd.example.unknown",
        "[2]     Type: application/vnd.oci.image.manifest.v1+json",
        "[2]   Digest: sha256:m1",
        "[2]   Length: 10",
        "[2] Platform:",
        "[2]    -      OS: linux",
        "[2]    -    Arch: amd64",
        "[2] # Layers: 1",
        "     layer 01: digest = sha256:aaa",
        "                 type = application/vnd.oci.image.layer.v1.tar+gzip",
        ""],
       .returned none⟩ := by
  refine ⟨by decide, by decide⟩

/-- Claim C9, as the code has it: an index entry `u` whose media type is not a
manifest type never makes `outputList` fail. Its block is its type, digest and
length lines followed by the note on the unknown media type, with no platform or
layer lines, whatever the store holds. `outputList` terminates on the index with
`u` as it does on the index without `u`, and where the other entries render, the
output holds the blocks of the entries before `u`, the block of `u`, and the
blocks of the entries after `u`, which are those of the index without `u`
numbered one higher. -/
theorem outputList_tolerates_unknown_entry (P : Palette) (J : JSON) (name : String)
    (cs : MemoryStore) (root : Descriptor) (schemaVersion : Int) (mediaType : String)
    (annotations : List (String × String)) (pre post : List Descriptor) (u : Descriptor)
    (hu : isManifestType u.MediaType = false) :
    entryBlock P J cs pre.length u =
      .ok ["[" ++ toString (pre.length + 1) ++ "]" ++ "     Type: " ++ P.green u.MediaType ++
              P.green (if isAttestation u then
                " (vnd.docker.reference.type=attestation-manifest)" else ""),
           "[" ++ toString (pre.length + 1) ++ "]" ++ "   Digest: " ++ P.yellow u.Digest,
           "[" ++ toString (pre.length + 1) ++ "]" ++ "   Length: " ++ P.blue (toString u.Size),
           "Unknown media type for further display: " ++ u.MediaType] ∧
    (outputList P J name cs root ⟨schemaVersion, mediaType, pre ++ u :: post,
        annotations⟩).termination =
      (outputList P J name cs root ⟨schemaVersion, mediaType, pre ++ post,
        annotations⟩).termination ∧
    (∀ b1 b2 : List String, entryBlocks P J cs 0 pre = .ok b1 →
      entryBlocks P J cs pre.length post = .ok b2 →
      (outputList P J name cs root ⟨schemaVersion, mediaType, pre ++ post,
          annotations⟩).stdout.drop 3 = b1 ++ b2 ∧
      ∃ b3 : List String, entryBlocks P J cs (pre.length + 1) post = .ok b3 ∧
        (outputList P J name cs root ⟨schemaVersion, mediaType, pre ++ u :: post,
            annotations⟩).termination = .returned none ∧
        (outputList P J name cs root ⟨schemaVersion, mediaType, pre ++ u :: post,
            annotations⟩).stdout.drop 3 =
          b1 ++ (entryHead P pre.length u ++
            ["Unknown media type for further display: " ++ u.MediaType]) ++ b3) := by
  have hblock : entryBlock P J cs pre.length u =
      .ok (entryHead P pre.length u ++
        ["Unknown media type for further display: " ++ u.MediaType]) := by
    unfold entryBlock
    rw [outputListStep_unknown P J cs pre.length u ⟨[], 0⟩ hu]
    simp [Except.map]
  have hfu : entryFault J cs u = none := by
    unfold entryFault
    simp [hu]
  refine ⟨?_, ?_, ?_⟩
  · rw [hblock]
    simp [entryHead]
  · rw [outputList_termination, outputList_termination]
    simp only [firstFault_append, firstFault, hfu]
  · intro b1 b2 h1 h2
    have h2z : entryBlocks P J cs (0 + pre.length) post = .ok b2 := by simpa using h2
    constructor
    · rw [outputList_of_blocks P J name cs root _ (b1 ++ b2)
        (entryBlocks_append P J cs 0 pre post b1 b2 h1 h2z)]
      simp [listHeader]
    · have hfpost : firstFault J cs post = none := by
        have hl := outputListLoop_fault P J cs post pre.length ⟨[], 0⟩
        cases hf : firstFault J cs post with
        | none => rfl
        | some t =>
          simp only [hf] at hl
          unfold entryBlocks at h2
          simp [hl, Except.map] at h2
      have hl3 := outputListLoop_fault P J cs post (pre.length + 1) ⟨[], 0⟩
      simp only [hfpost] at hl3
      obtain ⟨st3, hst3⟩ := hl3
      have h3 : entryBlocks P J cs (pre.length + 1) post = .ok st3.outputStr := by
        unfold entryBlocks
        simp [hst3, Except.map]
      have hu1 : entryBlocks P J cs (0 + pre.length) [u] =
          .ok (entryHead P pre.length u ++
            ["Unknown media type for further display: " ++ u.MediaType]) := by
        rw [entryBlocks_singleton]
        simpa using hblock
      have hpu := entryBlocks_append P J cs 0 pre [u] b1 _ h1 hu1
      have hall := entryBlocks_append P J cs 0 (pre ++ [u]) post _ st3.outputStr hpu
        (by simpa using h3)
      have hlist : pre ++ [u] ++ post = pre ++ u :: post := by simp
      rw [hlist] at hall
      refine ⟨st3.outputStr, h3, ?_, ?_⟩
      · rw [outputList_of_blocks P J name cs root _ _ hall]
      · rw [outputList_of_blocks P J name cs root _ _ hall]
        simp [listHeader]

/-- Witness for `outputList_tolerates_unknown_entry`: the unknown sample entry
between two platform entries. -/
theorem outputList_tolerates_unknown_entry_witness :
    isManifestType sampleUnknown.MediaType = false ∧
    (outputList Palette.plain sampleJSON "example.com/app:v1" sampleStore sampleRoot
      ⟨2, MediaTypeImageIndex, [sampleEntry] ++ sampleUnknown :: [sampleEntry],
        []⟩).termination = .returned none ∧
    (outputList Palette.plain sampleJSON "example.com/app:v1" sampleStore sampleRoot
        ⟨2, MediaTypeImageIndex, [sampleEntry] ++ sampleUnknown :: [sampleEntry],
          []⟩).termination =
      (outputList Palette.plain sampleJSON "example.com/app:v1" sampleStore sampleRoot
        ⟨2, MediaTypeImageIndex, [sampleEntry] ++ [sampleEntry], []⟩).termination :=
  ⟨by decide, by decide,
    (outputList_tolerates_unknown_entry Palette.plain sampleJSON "example.com/app:v1"
      sampleStore sampleRoot 2 MediaTypeImageIndex [] [sampleEntry] [sampleEntry] sampleUnknown
      (by decide)).2.1⟩

/-- Claim C10: for a manifest with n layers the text of `outputImage` has exactly
6 + n lines: the header lines name/type, digest, size, OS, architecture and layer
count, in this order (the count shown is n, the OS and architecture are those of
the image config), then one line per layer in manifest order, the line of the
layer at position k (counted from 0) carrying the number k + 1, written in
decimal with a leading `0` when it is below 10 and as it is from 10 on (the
format `%02d`: number 1 is written `01`), and the digest of that layer. This is
the text the action prints in human mode for a manifest root whose payload
decodes to the manifest and whose config payload decodes to the image config. -/
theorem outputImage_lines (P : Palette) (name : String) (descriptor : Descriptor)
    (manifest : Manifest) (config : Image) :
    (outputImage P name descriptor manifest config).length = 6 + manifest.Layers.length ∧
    (outputImage P name descriptor manifest config).take 6 =
      ["Name: " ++ P.green name ++ " (Type: " ++ P.green descriptor.MediaType ++ ")",
       "      Digest: " ++ P.yellow descriptor.Digest,
       "        Size: " ++ P.blue (toString descriptor.Size),
       "          OS: " ++ P.green config.OS,
       "        Arch: " ++ P.green config.Architecture,
       "    # Layers: " ++ P.red (toString manifest.Layers.length)] ∧
    (∀ (k : Nat) (layer : Descriptor), manifest.Layers[k]? = some layer →
      (outputImage P name descriptor manifest config)[6 + k]? =
        some ("      layer " ++ P.red (pad2 (k + 1)) ++ ": digest = " ++
          P.yellow layer.Digest)) ∧
    pad2 1 = "01" ∧ pad2 9 = "09" ∧ pad2 10 = "10" ∧
    (∀ (J : JSON) (ms : MemoryStore), isIndexType descriptor.MediaType = false →
      isManifestType descriptor.MediaType = true →
      J.UnmarshalManifest (payload ms descriptor) = .ok manifest →
      J.UnmarshalImage (payload ms manifest.Config) = .ok config →
      (inspectHuman P J name ms descriptor).2 =
        ⟨outputImage P name descriptor manifest config, .returned none⟩) ∧
    (∀ (k : Nat) (layer : Descriptor), manifest.Layers[k]? = some layer →
      (outputImage P name descriptor manifest config)[6 + k]? =
        some ("      layer " ++
          P.red (if k + 1 < 10 then "0" ++ toString (k + 1) else toString (k + 1)) ++
          ": digest = " ++ P.yellow layer.Digest)) ∧
    (∀ n : Nat, n < 10 → pad2 n = "0" ++ toString n ∧ (pad2 n).length = 2) ∧
    (∀ n : Nat, 10 ≤ n → pad2 n = toString n) ∧
    pad2 2 = "02" ∧ pad2 11 = "11" ∧ pad2 99 = "99" ∧ pad2 100 = "100" := by
  have hline : ∀ (k : Nat) (layer : Descriptor), manifest.Layers[k]? = some layer →
      (outputImage P name descriptor manifest config)[6 + k]? =
        some ("      layer " ++ P.red (pad2 (k + 1)) ++ ": digest = " ++
          P.yellow layer.Digest) := by
    intro k layer h
    have hk := outputImageLayers_getElem? P manifest.Layers 0 k layer h
    simp only [Nat.zero_add] at hk
    unfold outputImage
    rw [List.getElem?_append_right (by simp)]
    simpa using hk
  have hsmall : ∀ n : Nat, n < 10 → pad2 n = "0" ++ toString n := by
    intro n hn
    unfold pad2
    rw [if_pos hn]
  have hlarge : ∀ n : Nat, 10 ≤ n → pad2 n = toString n := by
    intro n hn
    unfold pad2
    rw [if_neg (by omega)]
  refine ⟨?_, ?_, hline, by decide, by decide, by decide, ?_, ?_, ?_, hlarge,
    by decide, by decide, by decide, by decide⟩
  · simp only [outputImage, List.length_append, outputImageLayers_length, List.length_cons,
      List.length_nil]
  · simp [outputImage]
  · intro J ms hi hm hman hconf
    unfold inspectHuman
    simp [hi, hm, hman, hconf]
  · intro k layer h
    rw [hline k layer h]
    by_cases hk : k + 1 < 10
    · rw [hsmall _ hk, if_pos hk]
    · rw [hlarge _ (by omega), if_neg hk]
  · intro n hn
    refine ⟨hsmall n hn, ?_⟩
    rw [hsmall n hn]
    interval_cases n <;> decide

/-- Witness for `outputImage_lines`: the sample manifest, with one layer. -/
theorem outputImage_lines_witness :
    outputImage Palette.plain "example.com/app:v1" sampleManifestRoot sampleManifest
        ⟨"amd64", "linux"⟩ =
      ["Name: example.com/app:v1 (Type: application/vnd.oci.image.manifest.v1+json)",
       "      Digest: sha256:m1",
       "        Size: 10",
       "          OS: linux",
       "        Arch: amd64",
       "    # Layers: 1",
       "      layer 01: digest = sha256:aaa"] ∧
    (outputImage Palette.plain "example.com/app:v1" sampleManifestRoot sampleManifest
        ⟨"amd64", "linux"⟩)[6 + 0]? =
      some ("      layer " ++ Palette.plain.red (pad2 (0 + 1)) ++ ": digest = " ++
        Palette.plain.yellow "sha256:aaa") :=
  ⟨by decide,
    (outputImage_lines Palette.plain "example.com/app:v1" sampleManifestRoot sampleManifest
      ⟨"amd64", "linux"⟩).2.2.1 0
      ⟨"application/vnd.oci.image.layer.v1.tar+gzip", "sha256:aaa", 5, [], none⟩ (by decide)⟩

/-- Claim C11: for every store and manifest-like root descriptor on which
`generateRawJSON` succeeds, in the default and in the config-expanded shape,
decoding the returned document (by any reader `decode` that recovers from a
marshalled single-manifest document the `schemaVersion`, the `mediaType` and the
layer digests it carries) yields the `schemaVersion`, the `mediaType` and the ordered layer
digests of the manifest decoded from the bytes stored under the root digest. -/
theorem generateRawJSON_manifest_round_trip (J : JSON) (name : String) (root : Descriptor)
    (expandConfig : Bool) (ms : MemoryStore) (doc : String)
    (decode : String → Option (Int × String × List String))
    (hroot : isManifestType root.MediaType = true)
    (hdecode : ∀ (v : RawJSON) (b : String) (r : Int × String × List String),
      J.MarshalIndent v = .ok b → v.roundTrip = some r → decode b = some r)
    (hok : generateRawJSON J name root expandConfig ms = (doc, none)) :
    ∃ man : Manifest,
      J.UnmarshalManifest (payload ms root) = .ok man ∧
      decode doc =
        some (man.SchemaVersion, man.MediaType, man.Layers.map (fun layer => layer.Digest)) := by
  obtain ⟨man, conf, hman, _, hdoc⟩ :=
    generateRawJSON_manifest_ok J name root expandConfig ms doc hroot hok
  refine ⟨man, hman, ?_⟩
  apply hdecode _ doc _ hdoc
  cases expandConfig <;> rfl

/-- Witness for `generateRawJSON_manifest_round_trip`: the sample manifest, in the
config-expanded shape. -/
theorem generateRawJSON_manifest_round_trip_witness :
    isManifestType sampleManifestRoot.MediaType = true ∧
    generateRawJSON sampleRoundTripJSON "example.com/app:v1" sampleManifestRoot false
        sampleStore = ("sample manifest document", none) ∧
    generateRawJSON sampleRoundTripJSON "example.com/app:v1" sampleManifestRoot true
        sampleStore = ("sample manifest document with config", none) ∧
    sampleRoundTripDecode "sample manifest document with config" =
      some (2, "application/vnd.oci.image.manifest.v1+json", ["sha256:aaa"]) ∧
    ∃ man : Manifest,
      sampleRoundTripJSON.UnmarshalManifest (payload sampleStore sampleManifestRoot) =
        .ok man ∧
      sampleRoundTripDecode "sample manifest document with config" =
        some (man.SchemaVersion, man.MediaType, man.Layers.map (fun layer => layer.Digest)) :=
  ⟨by decide, by decide, by decide, by decide,
    generateRawJSON_manifest_round_trip sampleRoundTripJSON "example.com/app:v1"
      sampleManifestRoot true sampleStore "sample manifest document with config"
      sampleRoundTripDecode (by decide) sampleRoundTripDecode_spec (by decide)⟩

/-- Claim C12 fails as stated: the manifest stored under `sha256:m5` has an
artifact type; the default document carries it with the other fields of the
embedded manifest, and the config-expanded document, which has no field for it,
is under every marshaller the document of the same manifest without artifact
type. -/
theorem expanded_document_drops_artifact_type :
    (sampleJSONExtra sampleFieldMarshal).UnmarshalManifest
        (payload sampleStoreExtra sampleArtifactRoot) = .ok sampleArtifactManifest ∧
    sampleArtifactManifest.ArtifactType = "application/vnd.example.artifact" ∧
    sampleManifest.ArtifactType = "" ∧
    generateRawJSON (sampleJSONExtra sampleFieldMarshal) "example.com/app:v1"
        sampleArtifactRoot false sampleStoreExtra =
      ("manifest example.com/app:v1 artifactType=application/vnd.example.artifact", none) ∧
    (∀ marshal : RawJSON → Except String String,
      generateRawJSON (sampleJSONExtra marshal) "example.com/app:v1" sampleArtifactRoot false
          sampleStoreExtra =
        match marshal (.manifest (manifestJson.start "example.com/app:v1" sampleArtifactRoot
            ⟨"amd64", "linux"⟩ sampleArtifactManifest)) with
        | .error err => ("", some err)
        | .ok b => (b, none)) ∧
    (∀ marshal : RawJSON → Except String String,
      generateRawJSON (sampleJSONExtra marshal) "example.com/app:v1" sampleArtifactRoot true
          sampleStoreExtra =
        match marshal (.manifestConfig (manifestConfigJson.start "example.com/app:v1"
            sampleArtifactRoot ⟨"amd64", "linux"⟩ sampleManifest)) with
        | .error err => ("", some err)
        | .ok b => (b, none)) := by
  refine ⟨rfl, rfl, rfl, by decide, fun marshal => rfl, fun marshal => rfl⟩

/-- Claim C12, as the code has it: for every manifest-like root on which
`generateRawJSON` succeeds in both shapes, the two documents are the marshalled
`manifestJson` and `manifestConfigJson` built from the same decoded manifest and
image config: they carry the same name, digest, os and architecture; the schema
version, media type, layers, subject and annotations of the expanded document
are those of the manifest embedded in the default document, whose remaining
fields are `config` and the artifact type; the `config` of the default document
is the config descriptor of the manifest, and that of the expanded document is
the image config decoded from the store under that descriptor; the artifact type
of the manifest is carried by the default document only, the expanded document
being the same whatever the artifact type. -/
theorem generateRawJSON_shapes_agree (J : JSON) (name : String) (root : Descriptor)
    (ms : MemoryStore) (doc docExpanded : String)
    (hroot : isManifestType root.MediaType = true)
    (hok : generateRawJSON J name root false ms = (doc, none))
    (hokExpanded : generateRawJSON J name root true ms = (docExpanded, none)) :
    ∃ (man : Manifest) (conf : Image) (v : manifestJson) (w : manifestConfigJson),
      J.UnmarshalManifest (payload ms root) = .ok man ∧
      J.UnmarshalImage (payload ms man.Config) = .ok conf ∧
      J.MarshalIndent (.manifest v) = .ok doc ∧
      J.MarshalIndent (.manifestConfig w) = .ok docExpanded ∧
      w.Name = v.Name ∧ w.Digest = v.Digest ∧ w.Os = v.Os ∧ w.Arch = v.Arch ∧
      v.Name = name ∧ v.Digest = root.Digest ∧ v.Os = conf.OS ∧ v.Arch = conf.Architecture ∧
      v.Manifest = man ∧
      v.Manifest =
        { SchemaVersion := w.SchemaVersion
          MediaType := w.MediaType
          ArtifactType := man.ArtifactType
          Config := man.Config
          Layers := w.Layers
          Subject := w.Subject
          Annotations := w.Annotations } ∧
      w.Config = conf ∧
      w =
        { SchemaVersion := man.SchemaVersion
          Name := name
          Digest := root.Digest
          Os := conf.OS
          Arch := conf.Architecture
          MediaType := man.MediaType
          Config := conf
          Layers := man.Layers
          Subject := man.Subject
          Annotations := man.Annotations } ∧
      ∀ artifactType : String,
        w = manifestConfigJson.start name root conf
          { man with ArtifactType := artifactType } := by
  obtain ⟨man, conf, hman, hconf, hdoc⟩ :=
    generateRawJSON_manifest_ok J name root false ms doc hroot hok
  obtain ⟨man2, conf2, hman2, hconf2, hdoc2⟩ :=
    generateRawJSON_manifest_ok J name root true ms docExpanded hroot hokExpanded
  rw [hman] at hman2
  cases hman2
  rw [hconf] at hconf2
  cases hconf2
  exact ⟨man, conf, manifestJson.start name root conf man,
    manifestConfigJson.start name root conf man, hman, hconf, hdoc, hdoc2,
    rfl, rfl, rfl, rfl, rfl, rfl, rfl, rfl, rfl, rfl, rfl, rfl, fun _ => rfl⟩

/-- Witness for `generateRawJSON_shapes_agree`: the sample manifest with an artifact
type. -/
theorem generateRawJSON_shapes_agree_witness :
    isManifestType sampleArtifactRoot.MediaType = true ∧
    generateRawJSON (sampleJSONExtra sampleFieldMarshal) "example.com/app:v1"
        sampleArtifactRoot false sampleStoreExtra =
      ("manifest example.com/app:v1 artifactType=application/vnd.example.artifact", none) ∧
    generateRawJSON (sampleJSONExtra sampleFieldMarshal) "example.com/app:v1"
        sampleArtifactRoot true sampleStoreExtra =
      ("manifest with config example.com/app:v1", none) ∧
    ∃ (man : Manifest) (conf : Image) (v : manifestJson) (w : manifestConfigJson),
      (sampleJSONExtra sampleFieldMarshal).UnmarshalManifest
          (payload sampleStoreExtra sampleArtifactRoot) = .ok man ∧
      (sampleJSONExtra sampleFieldMarshal).UnmarshalImage
          (payload sampleStoreExtra man.Config) = .ok conf ∧
      (sampleJSONExtra sampleFieldMarshal).MarshalIndent (.manifest v) =
        .ok "manifest example.com/app:v1 artifactType=application/vnd.example.artifact" ∧
      (sampleJSONExtra sampleFieldMarshal).MarshalIndent (.manifestConfig w) =
        .ok "manifest with config example.com/app:v1" ∧
      w.Name = v.Name ∧ w.Digest = v.Digest ∧ w.Os = v.Os ∧ w.Arch = v.Arch ∧
      v.Name = "example.com/app:v1" ∧ v.Digest = sampleArtifactRoot.Digest ∧
      v.Os = conf.OS ∧ v.Arch = conf.Architecture ∧
      v.Manifest = man ∧
      v.Manifest =
        { SchemaVersion := w.SchemaVersion
          MediaType := w.MediaType
          ArtifactType := man.ArtifactType
          Config := man.Config
          Layers := w.Layers
          Subject := w.Subject
          Annotations := w.Annotations } ∧
      w.Config = conf ∧
      w =
        { SchemaVersion := man.SchemaVersion
          Name := "example.com/app:v1"
          Digest := sampleArtifactRoot.Digest
          Os := conf.OS
          Arch := conf.Architecture
          MediaType := man.MediaType
          Config := conf
          Layers := man.Layers
          Subject := man.Subject
          Annotations := man.Annotations } ∧
      ∀ artifactType : String,
        w = manifestConfigJson.start "example.com/app:v1" sampleArtifactRoot conf
          { man with ArtifactType := artifactType } :=
  ⟨by decide, by decide, by decide,
    generateRawJSON_shapes_agree (sampleJSONExtra sampleFieldMarshal) "example.com/app:v1"
      sampleArtifactRoot sampleStoreExtra
      "manifest example.com/app:v1 artifactType=application/vnd.example.artifact"
      "manifest with config example.com/app:v1" (by decide) (by decide) (by decide)⟩

/-- Claim C13 at inputs where the code departs from it: the raw document of an
index does not carry what `outputList` prints from the descriptors. Two roots of
the same digest and different index media types have the same raw document under
every codec, and so have, under every marshaller, two stores whose index differs
in the media type, size and platform of its first entry; the human output
differs in both cases. -/
theorem raw_index_document_omits_descriptors :
    (∀ (J : JSON) (name : String) (expandConfig : Bool) (ms : MemoryStore),
      generateRawJSON J name sampleRoot expandConfig ms =
        generateRawJSON J name sampleListRoot expandConfig ms) ∧
    (outputList Palette.plain sampleJSON "example.com/app:v1" sampleStore sampleRoot
        sampleIndex).stdout[0]? =
      some "Name:   example.com/app:v1 (Type: application/vnd.oci.image.index.v1+json)" ∧
    (outputList Palette.plain sampleJSON "example.com/app:v1" sampleStore sampleListRoot
        sampleIndex).stdout[0]? =
      some ("Name:   example.com/app:v1 " ++
        "(Type: application/vnd.docker.distribution.manifest.list.v2+json)") ∧
    (∀ (marshal : RawJSON → Except String String) (name : String) (expandConfig : Bool),
      generateRawJSON (sampleJSONWith marshal) name sampleRoot expandConfig sampleStore =
        generateRawJSON (sampleJSONWith marshal) name sampleRoot expandConfig sampleStoreAlt) ∧
    generateRawJSON (sampleJSONWith sampleJSON.MarshalIndent) "example.com/app:v1" sampleRoot
        false sampleStore = ("index example.com/app:v1 3", none) ∧
    ((inspectHuman Palette.plain (sampleJSONWith sampleJSON.MarshalIndent)
        "example.com/app:v1" sampleStore sampleRoot).2.stdout.drop 3).take 6 =
      ["[1]     Type: application/vnd.oci.image.manifest.v1+json",
       "[1]   Digest: sha256:m1",
       "[1]   Length: 10",
       "[1] Platform:",
       "[1]    -      OS: linux",
       "[1]    -    Arch: amd64"] ∧
    ((inspectHuman Palette.plain (sampleJSONWith sampleJSON.MarshalIndent)
        "example.com/app:v1" sampleStoreAlt sampleRoot).2.stdout.drop 3).take 6 =
      ["[1]     Type: application/vnd.docker.distribution.manifest.v2+json",
       "[1]   Digest: sha256:m1",
       "[1]   Length: 99",
       "[1] Platform:",
       "[1]    -      OS: linux",
       "[1]    -    Arch: arm64"] := by
  refine ⟨fun J name expandConfig ms => rfl, by decide, by decide,
    fun marshal name expandConfig => rfl, by decide, by decide, by decide⟩

/-- Claim C14 at inputs where the code departs from it: the raw document of a
single manifest does not carry the media type and the size of the root
descriptor, which `outputImage` prints. Two roots of the same digest that differ
in media type and size have the same raw document under every codec, name, flag
and store, and different human output. -/
theorem raw_manifest_document_omits_type_and_size :
    (∀ (J : JSON) (name : String) (expandConfig : Bool) (ms : MemoryStore),
      generateRawJSON J name sampleManifestRoot expandConfig ms =
        generateRawJSON J name sampleManifestRootAlt expandConfig ms) ∧
    generateRawJSON sampleRoundTripJSON "example.com/app:v1" sampleManifestRoot false
        sampleStore = ("sample manifest document", none) ∧
    (inspectHuman Palette.plain sampleRoundTripJSON "example.com/app:v1" sampleStore
        sampleManifestRoot).2 =
      ⟨["Name: example.com/app:v1 (Type: application/vnd.oci.image.manifest.v1+json)",
        "      Digest: sha256:m1",
        "        Size: 10",
        "          OS: linux",
        "        Arch: amd64",
        "    # Layers: 1",
        "      layer 01: digest = sha256:aaa"], .returned none⟩ ∧
    (inspectHuman Palette.plain sampleRoundTripJSON "example.com/app:v1" sampleStore
        sampleManifestRootAlt).2 =
      ⟨["Name: example.com/app:v1 (Type: application/vnd.docker.distribution.manifest.v2+json)",
        "      Digest: sha256:m1",
        "        Size: 11",
        "          OS: linux",
        "        Arch: amd64",
        "    # Layers: 1",
        "      layer 01: digest = sha256:aaa"], .returned none⟩ := by
  refine ⟨fun J name expandConfig ms => rfl, by decide, by decide, by decide⟩

/-- Claim C15: for every name, root descriptor, expand-config flag and store,
`generateRawJSON` returns either a complete document (the whole output of
`json.MarshalIndent` on the document value) with no error, or an error together
with the empty string, never an error with a non-empty string; and a run of the
action in raw mode prints nothing or exactly that one complete document. -/
theorem generateRawJSON_no_partial_document (P : Palette) (J : JSON) (name : String)
    (root : Descriptor) (expandConfig : Bool) (ms : MemoryStore) (env : Collaborators) :
    ((∃ (v : RawJSON) (doc : String), J.MarshalIndent v = .ok doc ∧
        generateRawJSON J name root expandConfig ms = (doc, none)) ∨
      (∃ err, generateRawJSON J name root expandConfig ms = ("", some err))) ∧
    (∀ err, (generateRawJSON J name root expandConfig ms).2 = some err →
      (generateRawJSON J name root expandConfig ms).1 = "") ∧
    ((inspectAction P J ⟨name, true, expandConfig⟩ env).stdout = [] ∨
      ∃ (v : RawJSON) (doc : String), J.MarshalIndent v = .ok doc ∧
        (inspectAction P J ⟨name, true, expandConfig⟩ env).stdout = [doc] ∧
        (inspectAction P J ⟨name, true, expandConfig⟩ env).termination = .returned none) := by
  refine ⟨generateRawJSON_result J name root expandConfig ms, ?_, ?_⟩
  · intro err herr
    rcases generateRawJSON_result J name root expandConfig ms with ⟨v, doc, _, h⟩ | ⟨e, h⟩
    · rw [h] at herr
      cases herr
    · rw [h]
  · unfold inspectAction
    cases hp : env.ParseName with
    | error err => exact Or.inl (by simp)
    | ok namedTagged =>
      cases namedTagged with
      | false => exact Or.inl (by simp)
      | true =>
        cases hc : env.CreateRegistryHost with
        | some err => exact Or.inl (by simp)
        | none =>
          rcases generateRawJSON_result J name env.FetchDescriptor.1 expandConfig
            env.memoryStore with ⟨v, doc, hv, h⟩ | ⟨e, h⟩
          · refine Or.inr ⟨v, doc, hv, ?_⟩
            simp [h]
          · refine Or.inl ?_
            simp [h]

/-- Witness for `generateRawJSON_no_partial_document`: a root of unrecognized media
type gives an error with the empty string, the sample index a document. -/
theorem generateRawJSON_no_partial_document_witness :
    generateRawJSON sampleJSON "example.com/app:v1" sampleUnknown false sampleStore =
      ("", some "unknown descriptor type: application/vnd.example.unknown") ∧
    (inspectAction Palette.plain sampleJSON ⟨"example.com/app:v1", true, false⟩
        (sampleEnv sampleRoot)).stdout = ["index example.com/app:v1 3"] ∧
    (∀ err, (generateRawJSON sampleJSON "example.com/app:v1" sampleUnknown false
        sampleStore).2 = some err →
      (generateRawJSON sampleJSON "example.com/app:v1" sampleUnknown false
        sampleStore).1 = "") :=
  ⟨by decide, by decide,
    (generateRawJSON_no_partial_document Palette.plain sampleJSON "example.com/app:v1"
      sampleUnknown false sampleStore (sampleEnv sampleRoot)).2.1⟩

/-- Claim C16: in every invocation in which the reference has no explicit tag (the
parser rejects it or answers a reference that is not tagged), or in which
`--expand-config` is set without `--raw` (whatever the parser answers), the
action is terminated by `logrus.Fatal` after the call of
`util.ParseName` only: the memory store has not been created, the registry host
has not been configured, no descriptor has been fetched, and nothing has been
printed. -/
theorem inspectAction_validates_first (P : Palette) (J : JSON) (c : Context)
    (env : Collaborators)
    (h : env.ParseName ≠ .ok true ∨ (c.expandConfig = true ∧ c.raw = false)) :
    (∃ msg, (inspectAction P J c env).termination = .fatal msg) ∧
    (inspectAction P J c env).termination.exitCode = 1 ∧
    (inspectAction P J c env).calls = [.ParseName] ∧
    Call.NewMemoryStore ∉ (inspectAction P J c env).calls ∧
    Call.CreateRegistryHost ∉ (inspectAction P J c env).calls ∧
    Call.FetchDescriptor ∉ (inspectAction P J c env).calls ∧
    (inspectAction P J c env).stdout = [] := by
  have key : ∃ msg, inspectAction P J c env = ⟨[.ParseName], [], [], .fatal msg⟩ := by
    unfold inspectAction
    cases hp : env.ParseName with
    | error err => exact ⟨err, rfl⟩
    | ok namedTagged =>
      cases namedTagged with
      | false => exact ⟨_, rfl⟩
      | true =>
        rcases h with h1 | ⟨h2, h3⟩
        · exact absurd hp h1
        · exact ⟨"the --expand-config flag is only valid when used with --raw",
            by simp [h2, h3]⟩
  obtain ⟨msg, hmsg⟩ := key
  rw [hmsg]
  exact ⟨⟨msg, rfl⟩, rfl, rfl, by simp, by simp, by simp, rfl⟩

/-- Witness for `inspectAction_validates_first`: `--expand-config` without `--raw`
on a valid tagged reference. -/
theorem inspectAction_validates_first_witness :
    inspectAction Palette.plain sampleJSON ⟨"example.com/app:v1", false, true⟩
        (sampleEnv sampleRoot) =
      ⟨[.ParseName], [], [],
        .fatal "the --expand-config flag is only valid when used with --raw"⟩ ∧
    Call.NewMemoryStore ∉
      (inspectAction Palette.plain sampleJSON ⟨"example.com/app:v1", false, true⟩
        (sampleEnv sampleRoot)).calls :=
  ⟨by decide,
    (inspectAction_validates_first Palette.plain sampleJSON
      ⟨"example.com/app:v1", false, true⟩ (sampleEnv sampleRoot)
      (Or.inr ⟨rfl, rfl⟩)).2.2.2.1⟩

/-- Claim C17 fails as stated: the block of the third entry of the sample index,
an attestation, does not start with the line made of the number and the media
type of the entry alone; the line carries the attestation marker as well. -/
theorem outputList_type_line_carries_marker :
    (outputList Palette.plain sampleJSON "example.com/app:v1" sampleStore sampleRoot
        sampleIndex).termination = .returned none ∧
    sampleIndex.Manifests[2]? = some sampleAttestation ∧
    (outputList Palette.plain sampleJSON "example.com/app:v1" sampleStore sampleRoot
        sampleIndex).stdout.drop 23 =
      ["[3]     Type: application/vnd.oci.image.manifest.v1+json" ++
          " (vnd.docker.reference.type=attestation-manifest)",
        "[3]   Digest: sha256:m1",
        "[3]   Length: 10",
        "[3]       >>> Attestation for digest: sha256:bbb",
        ""] ∧
    (outputList Palette.plain sampleJSON "example.com/app:v1" sampleStore sampleRoot
        sampleIndex).stdout[23]? ≠
      some ("[3]     Type: " ++ sampleAttestation.MediaType) := by
  refine ⟨by decide, by decide, by decide, by decide⟩

/-- Claim C17, as the code has it: when `outputList` completes on an index with N
entries, its output after the header and summary lines is made of N blocks, in
the order of the entries; the block of the entry at position k (counted from 0)
starts with three lines numbered k + 1: the type line, carrying the media type
of the entry followed by the attestation marker when the entry is an
attestation, then the digest line and the length line of the entry. -/
theorem outputList_blocks_in_order (P : Palette) (J : JSON) (name : String) (cs : MemoryStore)
    (root : Descriptor) (index : Index)
    (h : (outputList P J name cs root index).termination = .returned none) :
    ∃ blocks : List (List String),
      blocks.length = index.Manifests.length ∧
      (outputList P J name cs root index).stdout.drop 3 = blocks.flatten ∧
      ∀ (k : Nat) (img : Descriptor), index.Manifests[k]? = some img →
        ∃ rest, blocks[k]? =
          some (["[" ++ toString (k + 1) ++ "]" ++ "     Type: " ++ P.green img.MediaType ++
                  P.green (if isAttestation img then
                    " (vnd.docker.reference.type=attestation-manifest)" else ""),
                 "[" ++ toString (k + 1) ++ "]" ++ "   Digest: " ++ P.yellow img.Digest,
                 "[" ++ toString (k + 1) ++ "]" ++ "   Length: " ++
                  P.blue (toString img.Size)] ++ rest) := by
  obtain ⟨st, hst⟩ := outputList_returned P J name cs root index h
  obtain ⟨blocks, hlen, hout, hget⟩ := outputListLoop_blocks P J cs index.Manifests 0 _ st hst
  refine ⟨blocks, hlen, ?_, ?_⟩
  · rw [outputList_of_loop_ok P J name cs root index st hst, hout]
    simp [listHeader]
  · intro k img hk
    obtain ⟨rest, hr⟩ := hget k img hk
    refine ⟨rest, ?_⟩
    rw [hr]
    simp [entryHead]

/-- Witness for `outputList_blocks_in_order`: the sample index. -/
theorem outputList_blocks_in_order_witness :
    (outputList Palette.plain sampleJSON "example.com/app:v1" sampleStore sampleRoot
        sampleIndex).termination = .returned none ∧
    ∃ blocks : List (List String),
      blocks.length = sampleIndex.Manifests.length ∧
      (outputList Palette.plain sampleJSON "example.com/app:v1" sampleStore sampleRoot
        sampleIndex).stdout.drop 3 = blocks.flatten ∧
      ∀ (k : Nat) (img : Descriptor), sampleIndex.Manifests[k]? = some img →
        ∃ rest, blocks[k]? =
          some (["[" ++ toString (k + 1) ++ "]" ++ "     Type: " ++
                  Palette.plain.green img.MediaType ++
                  Palette.plain.green (if isAttestation img then
                    " (vnd.docker.reference.type=attestation-manifest)" else ""),
                 "[" ++ toString (k + 1) ++ "]" ++ "   Digest: " ++
                  Palette.plain.yellow img.Digest,
                 "[" ++ toString (k + 1) ++ "]" ++ "   Length: " ++
                  Palette.plain.blue (toString img.Size)] ++ rest) :=
  ⟨by decide,
    outputList_blocks_in_order Palette.plain sampleJSON "example.com/app:v1" sampleStore
      sampleRoot sampleIndex (by decide)⟩

/-- Claim C18 at an input where the code departs from it: on an index whose only
entry has a manifest media type, a decodable payload, no attestation annotation
and no platform, `outputList` prints its two header lines and then panics on the
nil platform; the process ends with status 2. -/
theorem outputList_panics_without_platform :
    isManifestType sampleEntryNoPlatform.MediaType = true ∧
    sampleJSON.UnmarshalManifest (payload sampleStore sampleEntryNoPlatform) =
      .ok sampleManifest ∧
    isAttestation sampleEntryNoPlatform = false ∧
    sampleEntryNoPlatform.Platform = none ∧
    outputList Palette.plain sampleJSON "example.com/app:v1" sampleStore sampleRoot
        ⟨2, MediaTypeImageIndex, [sampleEntryNoPlatform], []⟩ =
      ⟨["Name:   example.com/app:v1 (Type: application/vnd.oci.image.index.v1+json)",
        "Digest: sha256:root"],
       .panic "invalid memory address or nil pointer dereference"⟩ ∧
    (outputList Palette.plain sampleJSON "example.com/app:v1" sampleStore sampleRoot
        ⟨2, MediaTypeImageIndex, [sampleEntryNoPlatform], []⟩).termination.exitCode = 2 := by
  refine ⟨by decide, rfl, by decide, rfl, by decide, by decide⟩

/-- Claim C19: when an entry of manifest media type of the index fails to decode,
`outputList` has written exactly its two header lines, the name and type line
and the digest line: neither the summary line nor the block of any entry is
written, the process having been stopped inside the loop; it is stopped by
`logrus.Fatal` with the decoding error when the entries before that one are
processed without fault. -/
theorem outputList_decode_failure_output (P : Palette) (J : JSON) (name : String)
    (cs : MemoryStore) (root : Descriptor) (schemaVersion : Int) (mediaType : String)
    (annotations : List (String × String)) (pre post : List Descriptor) (img : Descriptor)
    (err : String)
    (hm : isManifestType img.MediaType = true)
    (hdec : J.UnmarshalManifest (payload cs img) = .error err) :
    (outputList P J name cs root ⟨schemaVersion, mediaType, pre ++ img :: post,
        annotations⟩).stdout =
      ["Name:   " ++ P.green name ++ " (Type: " ++ P.green root.MediaType ++ ")",
       "Digest: " ++ P.yellow root.Digest] ∧
    (∃ msg, (outputList P J name cs root ⟨schemaVersion, mediaType, pre ++ img :: post,
          annotations⟩).termination = .fatal msg ∨
        (outputList P J name cs root ⟨schemaVersion, mediaType, pre ++ img :: post,
          annotations⟩).termination = .panic msg) ∧
    (firstFault J cs pre = none →
      (outputList P J name cs root ⟨schemaVersion, mediaType, pre ++ img :: post,
        annotations⟩).termination = .fatal err) := by
  obtain ⟨t, ht⟩ := outputListLoop_decode_error P J cs (pre ++ img :: post) 0 ⟨[], 0⟩ img
    (by simp) hm ⟨err, hdec⟩
  have hrun := outputList_of_loop_error P J name cs root
    ⟨schemaVersion, mediaType, pre ++ img :: post, annotations⟩ t ht
  refine ⟨?_, ?_, ?_⟩
  · rw [hrun]
    rfl
  · rw [hrun]
    exact outputListLoop_error P J cs _ 0 _ t ht
  · intro hpre
    rw [outputList_termination]
    have hf : entryFault J cs img = some (.fatal err) := by
      unfold entryFault
      simp [hm, hdec]
    simp only [firstFault_append, hpre, firstFault, hf]

/-- Witness for `outputList_decode_failure_output`: the second entry of the index
is absent from the store, so that its payload is empty and does not decode. -/
theorem outputList_decode_failure_output_witness :
    isManifestType sampleEntryAbsent.MediaType = true ∧
    sampleJSON.UnmarshalManifest (payload sampleStore sampleEntryAbsent) =
      .error "unexpected end of JSON input" ∧
    outputList Palette.plain sampleJSON "example.com/app:v1" sampleStore sampleRoot
        ⟨2, MediaTypeImageIndex, [sampleEntry] ++ sampleEntryAbsent :: [sampleEntry], []⟩ =
      ⟨["Name:   example.com/app:v1 (Type: application/vnd.oci.image.index.v1+json)",
        "Digest: sha256:root"],
       .fatal "unexpected end of JSON input"⟩ ∧
    (outputList Palette.plain sampleJSON "example.com/app:v1" sampleStore sampleRoot
        ⟨2, MediaTypeImageIndex, [sampleEntry] ++ sampleEntryAbsent :: [sampleEntry],
          []⟩).stdout =
      ["Name:   " ++ Palette.plain.green "example.com/app:v1" ++ " (Type: " ++
          Palette.plain.green sampleRoot.MediaType ++ ")",
       "Digest: " ++ Palette.plain.yellow sampleRoot.Digest] :=
  ⟨by decide, rfl, by decide,
    (outputList_decode_failure_output Palette.plain sampleJSON "example.com/app:v1" sampleStore
      sampleRoot 2 MediaTypeImageIndex [] [sampleEntry] [sampleEntry] sampleEntryAbsent
      "unexpected end of JSON input" (by decide) rfl).1⟩

end ManifestTool
